import Mathlib

/-!
Verification development for the SVG form-field engine of the Printplog backend.

The Python modules `api/svg_parser.py`, `api/svg_utils.py`, `api/svg_updater.py`
and `api/svg_sync.py` are shallowly embedded below.  Dictionaries are modelled
as association lists with Python dict semantics (insertion order preserved,
assignment to an existing key overwrites in place), Python values that flow
through the engine are modelled by the inductive type `PyVal`, and XML element
trees are modelled by the nested inductive `XElem`.  All functions are written
with structural recursion so that concrete runs reduce inside the kernel.
-/

/-! ## Python-style string and dictionary primitives -/

/-- Boolean prefix test on character lists. -/
def prefixOfL : List Char → List Char → Bool
  | [], _ => true
  | _ :: _, [] => false
  | a :: as, b :: bs => a = b && prefixOfL as bs

/-- Models Python `s.startswith(pre)`. -/
def strStarts (s pre : String) : Bool := prefixOfL pre.data s.data

/-- Models Python `s.endswith(suf)`. -/
def strEnds (s suf : String) : Bool := prefixOfL suf.data.reverse s.data.reverse

/-- Split a character list on a single separator character, Python `str.split(sep)` style:
splitting the empty string gives one empty group. -/
def splitCharL (sep : Char) : List Char → List (List Char)
  | [] => [[]]
  | c :: rest =>
    match splitCharL sep rest with
    | [] => [[]]
    | grp :: grps => if c = sep then [] :: grp :: grps else (c :: grp) :: grps

/-- Models Python `s.split(sep)` for a one-character separator. -/
def pySplitChar (sep : Char) (s : String) : List String :=
  (splitCharL sep s.data).map String.mk

/-- Whitespace characters recognised by Python `str.strip()` / `str.split()`
(the ASCII subset, which covers every string the engine handles). -/
def isPyWs (c : Char) : Bool :=
  c = ' ' || c = '\t' || c = '\n' || c = '\r' || c = '\x0b' || c = '\x0c'

def pyStripL (l : List Char) : List Char :=
  ((l.dropWhile isPyWs).reverse.dropWhile isPyWs).reverse

/-- Models Python `s.strip()`. -/
def pyStrip (s : String) : String := String.mk (pyStripL s.data)

/-- Models Python `s.split()` (split on whitespace runs, no empty tokens). -/
def pyWords (s : String) : List String :=
  ((splitCharL ' ' (s.data.map (fun c => if isPyWs c then ' ' else c))).filter
    (fun g => g ≠ [])).map String.mk

def digitsToNat? (l : List Char) : Option Nat :=
  if l = [] then none
  else if l.all Char.isDigit then
    some (l.foldl (fun acc c => acc * 10 + (c.toNat - 48)) 0)
  else none

/-- Models Python `int(s)` for decimal literals: surrounding whitespace and an
optional sign are accepted, anything else raises `ValueError`, modelled as `none`. -/
def pyInt (s : String) : Option Int :=
  match pyStripL s.data with
  | '-' :: rest => (digitsToNat? rest).map (fun n => -(Int.ofNat n))
  | '+' :: rest => (digitsToNat? rest).map (fun n => Int.ofNat n)
  | rest => (digitsToNat? rest).map (fun n => Int.ofNat n)

/-- Models Python `int(float(s))` for plain decimal literals (optional sign, digits
with an optional fractional part, truncation toward zero).  Exponent notation,
`inf` and `nan` are modelled as failures. -/
def pyFloatToInt (s : String) : Option Int :=
  let t := pyStripL s.data
  let signed : Bool × List Char :=
    match t with
    | '-' :: r => (true, r)
    | '+' :: r => (false, r)
    | r => (false, r)
  match splitCharL '.' signed.2 with
  | [ip] => (digitsToNat? ip).map (fun n => if signed.1 then -(n : Int) else (n : Int))
  | [ip, fp] =>
    if (ip ≠ [] || fp ≠ []) && ip.all Char.isDigit && fp.all Char.isDigit then
      let n : Nat := ip.foldl (fun acc c => acc * 10 + (c.toNat - 48)) 0
      some (if signed.1 then -(n : Int) else (n : Int))
    else none
  | _ => none

/-- Replace every (non-overlapping, left-to-right) occurrence of `pat` by `rep`;
the fuel argument makes the recursion structural.  With fuel `≥ length` this is
Python `s.replace(pat, rep)`. -/
def replaceAllL (pat rep : List Char) : Nat → List Char → List Char
  | _, [] => []
  | 0, s => s
  | f + 1, c :: rest =>
    if pat ≠ [] && prefixOfL pat (c :: rest) then
      rep ++ replaceAllL pat rep f (List.drop (pat.length - 1) rest)
    else
      c :: replaceAllL pat rep f rest

/-- Models Python `s.replace(pat, rep)` (for nonempty `pat`). -/
def pyReplace (s pat rep : String) : String :=
  String.mk (replaceAllL pat.data rep.data s.data.length s.data)

def asciiLower (c : Char) : Char :=
  if 'A' ≤ c ∧ c ≤ 'Z' then Char.ofNat (c.toNat + 32) else c

def asciiUpper (c : Char) : Char :=
  if 'a' ≤ c ∧ c ≤ 'z' then Char.ofNat (c.toNat - 32) else c

/-- Models Python `s.lower()` (ASCII model). -/
def pyLower (s : String) : String := String.mk (s.data.map asciiLower)

/-- Models Python `s.title()`: the first of each run of cased characters is
uppercased, the rest lowercased (letters are the cased characters here). -/
def pyTitle (s : String) : String :=
  String.mk
    ((s.data.foldl
        (fun (acc : List Char × Bool) c =>
          if c.isAlpha then
            ((if acc.2 then asciiLower c else asciiUpper c) :: acc.1, true)
          else (c :: acc.1, false))
        ([], false)).1.reverse)

/-- Find the index of the first occurrence of `pat` as a contiguous sublist,
Python `s.index(pat)` / `pat in s`. -/
def findSubIdx (pat : List Char) : List Char → Option Nat
  | [] => if prefixOfL pat [] then some 0 else none
  | c :: rest =>
    if prefixOfL pat (c :: rest) then some 0 else (findSubIdx pat rest).map (fun i => i + 1)

/-- Models Python `sep.join(items)`. -/
def joinSep (sep : String) : List String → String
  | [] => ""
  | [x] => x
  | x :: xs => x ++ sep ++ joinSep sep xs

/-- Python dict assignment `m[k] = v` on an association list: an existing key is
overwritten in place (its position in the insertion order is kept), a new key is
appended at the end. -/
def dictInsert [DecidableEq α] (k : α) (v : β) : List (α × β) → List (α × β)
  | [] => [(k, v)]
  | (k0, v0) :: rest => if k0 = k then (k, v) :: rest else (k0, v0) :: dictInsert k v rest

/-- Python `m.get(k)` on an association list (the first binding wins; with
`dictInsert` as the only constructor keys are unique). -/
def dget [DecidableEq α] : List (α × β) → α → Option β
  | [], _ => none
  | (k0, v0) :: rest, k => if k0 = k then some v0 else dget rest k

/-! ## Python values

The values the engine passes around (JSON field values, patch values) are
strings, booleans, integers, `None`, and the structured `reorder` directive
dict, of which the code only ever reads the `afterId` and `beforeId` keys. -/

inductive PyVal : Type where
  | none : PyVal
  | str : String → PyVal
  | bool : Bool → PyVal
  | int : Int → PyVal
  | vdict : Option String → Option String → PyVal
  deriving DecidableEq, Repr

/-- Python truthiness of a value.  A `reorder` directive dict as submitted by the
editor always carries keys, so the dict case is truthy. -/
def PyVal.truthy : PyVal → Bool
  | .none => false
  | .str s => s ≠ ""
  | .bool b => b
  | .int n => n ≠ 0
  | .vdict _ _ => true

/-- Decimal digits of a natural number, fuelled to stay structural. -/
def natDigitsAux : Nat → Nat → List Char
  | _, 0 => []
  | 0, _ + 1 => []
  | n + 1, f + 1 =>
    natDigitsAux ((n + 1) / 10) f ++ [Char.ofNat ((n + 1) % 10 + 48)]

def natToStr (n : Nat) : String :=
  match n with
  | 0 => "0"
  | m + 1 => String.mk (natDigitsAux (m + 1) (m + 1))

def intToStr (n : Int) : String :=
  if n < 0 then "-" ++ natToStr n.natAbs else natToStr n.natAbs

/-- Models Python `str(v)`. -/
def PyVal.pyStr : PyVal → String
  | .none => "None"
  | .str s => s
  | .bool b => if b then "True" else "False"
  | .int n => intToStr n
  | .vdict a b =>
    "afterId=" ++ (a.getD "None") ++ ",beforeId=" ++ (b.getD "None")

/-- Python `a or b`. -/
def pyOr (a b : PyVal) : PyVal := if a.truthy then a else b

/-- Truthiness of an optional string (Python `None` and `""` are falsy). -/
def truthyOS : Option String → Bool
  | Option.none => false
  | Option.some s => s ≠ ""

/-! ## XML element trees

`XElem` models an `xml.etree` / `lxml` element: an attribute dict, the text
inside the opening tag, the tail text following the closing tag, and the child
elements.  Tag names and namespace maps are not read by any embedded function
and are omitted. -/

inductive XElem : Type where
  | mk (attrs : List (String × String)) (text : Option String) (tail : Option String)
       (children : List XElem)

def XElem.attrs : XElem → List (String × String)
  | .mk a _ _ _ => a

def XElem.text : XElem → Option String
  | .mk _ t _ _ => t

def XElem.tail : XElem → Option String
  | .mk _ _ tl _ => tl

def XElem.children : XElem → List XElem
  | .mk _ _ _ cs => cs

/-- Python `element.get(k)` / `element.attrib.get(k)`. -/
def XElem.getAttr (e : XElem) (k : String) : Option String := dget e.attrs k

/-- Python `element.set(k, v)`. -/
def XElem.setAttr (e : XElem) (k v : String) : XElem :=
  match e with
  | .mk a t tl cs => .mk (dictInsert k v a) t tl cs

/-- Python `element.attrib.pop(k, None)` / `del element.attrib[k]`. -/
def XElem.popAttr (e : XElem) (k : String) : XElem :=
  match e with
  | .mk a t tl cs => .mk (a.filter (fun kv => kv.1 ≠ k)) t tl cs

def XElem.setText (e : XElem) (t : Option String) : XElem :=
  match e with
  | .mk a _ tl cs => .mk a t tl cs

def XElem.setChildren (e : XElem) (cs : List XElem) : XElem :=
  match e with
  | .mk a t tl _ => .mk a t tl cs

/-- Truthiness of an element in `lxml` / `xml.etree`: an element is truthy iff
it has child elements. -/
def XElem.pyTruthy (e : XElem) : Bool := !(e.children.isEmpty)

mutual
/-- The element and all its descendants, in document order: Python `root.iter()`. -/
def XElem.allElems : XElem → List XElem
  | .mk a t tl cs => .mk a t tl cs :: allElemsL cs

def allElemsL : List XElem → List XElem
  | [] => []
  | c :: cs => XElem.allElems c ++ allElemsL cs
end

mutual
/-- Paths (child-index lists) of all strict descendants satisfying `p`, in
document order: the element reached by xpath `.//*` selection. -/
def XElem.subPaths (pr : XElem → Bool) : XElem → List (List Nat)
  | .mk _ _ _ cs => subPathsL pr cs 0

def subPathsL (pr : XElem → Bool) : List XElem → Nat → List (List Nat)
  | [], _ => []
  | c :: cs, i =>
    (if pr c then [[i]] else []) ++ (XElem.subPaths pr c).map (fun q => i :: q) ++
      subPathsL pr cs (i + 1)
end

/-- Element at a child-index path (`[]` is the root itself). -/
def XElem.getAtPath : XElem → List Nat → Option XElem
  | e, [] => some e
  | e, i :: p =>
    match e.children.get? i with
    | some c => XElem.getAtPath c p
    | none => none

mutual
/-- Apply `f` to the element at the given path (out-of-range paths leave the
tree unchanged). -/
def XElem.modifyAtPath (f : XElem → XElem) : XElem → List Nat → XElem
  | e, [] => f e
  | .mk a t tl cs, i :: p => .mk a t tl (modifyAtPathL f cs i p)

def modifyAtPathL (f : XElem → XElem) : List XElem → Nat → List Nat → List XElem
  | [], _, _ => []
  | c :: cs, 0, p => XElem.modifyAtPath f c p :: cs
  | c :: cs, n + 1, p => c :: modifyAtPathL f cs n p
end

/-- Python `list.insert(i, x)` semantics: an index past the end appends. -/
def listInsertIdx (x : α) : List α → Nat → List α
  | [], _ => [x]
  | y :: ys, 0 => x :: y :: ys
  | y :: ys, n + 1 => y :: listInsertIdx x ys n

/-- Remove the element at a (nonempty) path from its parent. -/
def XElem.removeAtPath (e : XElem) (p : List Nat) : XElem :=
  match p.getLast? with
  | none => e
  | some i =>
    e.modifyAtPath (fun par => par.setChildren (par.children.eraseIdx i)) p.dropLast

/-! ## svg_parser.py -/

def FIELD_TYPES : List String :=
  ["text", "textarea", "checkbox", "date", "upload",
   "number", "email", "tel", "gen", "password",
   "range", "color", "file", "status", "sign"]

/-- Source `extract_link_url`: cut the identifier at the first `.link_` marker
and return the part before it together with the URL after it. -/
def extract_link_url (element_id : String) : String × Option String :=
  match findSubIdx ".link_".data element_id.data with
  | none => (element_id, none)
  | some i =>
    (String.mk (element_id.data.take i), some (String.mk (element_id.data.drop (i + 6))))

/-- Source `is_element_visible`. -/
def is_element_visible (element : XElem) : Bool :=
  let opacity := (element.getAttr "opacity").getD "1"
  let visibility := (element.getAttr "visibility").getD "visible"
  let display := (element.getAttr "display").getD ""
  ¬(opacity == "0" || visibility == "hidden" || display == "none")

/-- Source `get_extension_value`: `part.replace(pre, "")`. -/
def get_extension_value (part pre : String) : String := pyReplace part pre ""

/-- Index of the first part starting with `track_` (Python
`next((i for i, p in enumerate(parts) if p.startswith("track_")), None)`). -/
def findTrackIdx : List String → Option Nat
  | [] => none
  | p :: rest =>
    if strStarts p "track_" then some 0 else (findTrackIdx rest).map (fun i => i + 1)

/-- Source `validate_track_position`. -/
def validate_track_position (parts : List String) : Bool :=
  match findTrackIdx parts with
  | some i => i == parts.length - 1
  | none => true

/-- Source `get_field_name`. -/
def get_field_name (base_id : String) : String := pyTitle (pyReplace base_id "_" " ")

/-- The transient extension record built by `parse_field_extensions`.  Keys the
source adds only conditionally (`max_generation`, `grayscale_intensity`) are
`Option` fields that are `none` exactly when the key is absent or `None`. -/
structure FieldExt where
  field_type : String
  max_value : Option Int
  dependency : Option String
  tracking_role : Option String
  date_format : Option String
  generation_rule : Option String
  editable : Bool
  is_tracking_id : Bool
  requires_grayscale : Bool
  grayscale_intensity : Option Int
  max_generation : Option String
  deriving DecidableEq, Repr

/-- One iteration of the `for part in parts[1:]` loop in `parse_field_extensions`. -/
def extStep (parts : List String) (r : FieldExt) (part : String) : FieldExt :=
  if strStarts part "max_" then
    let mc := get_extension_value part "max_"
    if strStarts mc "(" && strEnds mc ")" then { r with max_generation := some mc }
    else
      match pyInt mc with
      | some n => { r with max_value := some n }
      | none => r
  else if strStarts part "depends_" then
    { r with dependency := some (get_extension_value part "depends_") }
  else if strStarts part "track_" then
    if parts.indexOf part == parts.length - 1 then
      { r with tracking_role := some (get_extension_value part "track_") }
    else r
  else if strStarts part "date_" then
    let r1 := { r with date_format := some (get_extension_value part "date_") }
    if r1.field_type == parts.headD "" then { r1 with field_type := "date" } else r1
  else if strStarts part "gen_" then
    let r1 := { r with generation_rule := some (get_extension_value part "gen_") }
    if r1.field_type == parts.headD "" then { r1 with field_type := "gen" } else r1
  else if part == "tracking_id" then
    { r with field_type := "gen", is_tracking_id := true }
  else if part == "editable" then
    { r with editable := true }
  else if part == "grayscale" then
    { r with requires_grayscale := true, grayscale_intensity := some 100 }
  else if strStarts part "grayscale_" then
    let raw := get_extension_value part "grayscale_"
    match pyFloatToInt raw with
    | some n =>
      { r with requires_grayscale := true,
               grayscale_intensity := some (max 0 (min 100 n)) }
    | none =>
      { r with requires_grayscale := true, grayscale_intensity := some 100 }
  else if strStarts part "hide" || FIELD_TYPES.contains part then
    { r with field_type := if strStarts part "hide" then "hide" else part }
  else r

/-- Source `parse_field_extensions`. -/
def parse_field_extensions (parts : List String) : FieldExt :=
  let init : FieldExt :=
    { field_type := parts.headD "", max_value := none, dependency := none,
      tracking_role := none, date_format := none, generation_rule := none,
      editable := false, is_tracking_id := false, requires_grayscale := false,
      grayscale_intensity := none, max_generation := none }
  let r := (parts.drop 1).foldl (extStep parts) init
  if r.requires_grayscale && r.grayscale_intensity.isNone then
    { r with grayscale_intensity := some 100 }
  else r

/-- Source `get_default_value`. -/
def get_default_value (field_type : String) (text_content : String)
    (parts : List String) : PyVal :=
  if field_type == "checkbox" then .bool false
  else if field_type == "hide" then
    .bool ((parts.find? (fun p => strStarts p "hide")).getD "hide" == "hide_checked")
  else .str text_content

/-- A select option dict. -/
structure SelectOpt where
  value : String
  label : PyVal
  svgElementId : String
  displayText : PyVal
  deriving DecidableEq, Repr

/-- A form-field dict.  Keys the source adds only for truthy values are `Option`
fields (`none` = key absent); boolean keys the source omits entirely on some
construction paths are modelled as `false` when absent; `options` is `[]` when
the key is absent (no code path distinguishes a missing `options` key from an
empty list). -/
structure FormField where
  id : String
  name : String
  type : String
  svgElementId : String
  defaultValue : PyVal
  currentValue : PyVal
  isTrackingId : Bool
  editable : Bool
  trackingRole : Option String
  max : Option Int
  dependsOn : Option String
  dateFormat : Option String
  generationRule : Option String
  maxGeneration : Option String
  link : Option String
  helperText : Option String
  requiresGrayscale : Bool
  grayscaleIntensity : Option Int
  options : List SelectOpt
  rotation : Option Int
  deriving DecidableEq, Repr

/-- Source `create_regular_field`. -/
def create_regular_field (base_id element_id : String) (ext : FieldExt)
    (default_value : PyVal) (url : Option String) (helper_text : Option String) : FormField :=
  { id := base_id
    name := get_field_name base_id
    type := ext.field_type
    svgElementId := element_id
    defaultValue := default_value
    currentValue := default_value
    isTrackingId := ext.is_tracking_id
    editable := ext.editable
    trackingRole := if truthyOS ext.tracking_role then ext.tracking_role else none
    max := ext.max_value
    dependsOn := if truthyOS ext.dependency then ext.dependency else none
    dateFormat := if truthyOS ext.date_format then ext.date_format else none
    generationRule := if truthyOS ext.generation_rule then ext.generation_rule else none
    maxGeneration := if truthyOS ext.max_generation then ext.max_generation else none
    link := if truthyOS url then url else none
    helperText := if truthyOS helper_text then helper_text else none
    requiresGrayscale := ext.requires_grayscale
    grayscaleIntensity := if ext.requires_grayscale then ext.grayscale_intensity else none
    options := []
    rotation := none }

/-- Source `create_select_option`. -/
def create_select_option (element_id : String) (element : XElem)
    (parts : List String) : SelectOpt :=
  let select_part := (parts.find? (fun p => strStarts p "select_")).getD ""
  let label := pyReplace (get_extension_value select_part "select_") "_" " "
  let option_text := pyStrip ((element.text).getD "")
  { value := element_id
    label := .str label
    svgElementId := element_id
    displayText := .str (if option_text ≠ "" then option_text else label) }

structure SelectMods where
  tracking_role : Option String
  editable : Bool
  deriving DecidableEq, Repr

/-- Source `extract_select_modifiers`. -/
def extract_select_modifiers (parts : List String) : SelectMods :=
  { tracking_role :=
      (parts.find? (fun p => strStarts p "track_")).map (fun tp => get_extension_value tp "track_")
    editable := parts.contains "editable" }

/-- Source `create_select_field` (keys the dict literal omits are model defaults). -/
def create_select_field (base_id element_id : String) (editable : Bool) : FormField :=
  { id := base_id
    name := get_field_name base_id
    type := "select"
    svgElementId := element_id
    options := []
    defaultValue := .str ""
    currentValue := .str ""
    editable := editable
    isTrackingId := false
    trackingRole := none
    max := none
    dependsOn := none
    dateFormat := none
    generationRule := none
    maxGeneration := none
    link := none
    helperText := none
    requiresGrayscale := false
    grayscaleIntensity := none
    rotation := none }

/-- Source `update_select_field`. -/
def update_select_field (field : FormField) (opt : SelectOpt) (is_visible : Bool)
    (mods : SelectMods) : FormField :=
  let f1 := if is_visible then { field with currentValue := .str opt.value } else field
  let f2 :=
    if ¬ f1.defaultValue.truthy ∧ f1.options ≠ [] then
      match f1.options with
      | o :: _ => { f1 with defaultValue := .str o.value }
      | [] => f1
    else f1
  let f3 :=
    if truthyOS mods.tracking_role then { f2 with trackingRole := mods.tracking_role } else f2
  if mods.editable then { f3 with editable := true } else f3

def KNOWN_FIELD_TYPES : List String :=
  ["text", "textarea", "select", "checkbox", "date", "upload",
   "file", "sign", "gen", "status", "hide", "number", "range",
   "color", "email", "tel", "url", "password"]

/-- Source `parse_field_from_id`: parse a field directly from an identifier
string, with `text_content` seeding the default value. -/
def parse_field_from_id (element_id : String) (text_content : String) : Option FormField :=
  if element_id == "" then none
  else if (pySplitChar '.' element_id).any (fun p => strStarts p "select_") then none
  else
    let cu := extract_link_url element_id
    let parts := pySplitChar '.' cu.1
    match parts with
    | [] => none
    | p0 :: _ =>
      if p0 == "" then none
      else if ¬ validate_track_position parts then none
      else
        let ext := parse_field_extensions parts
        let ext :=
          if ¬ KNOWN_FIELD_TYPES.contains ext.field_type then
            { ext with field_type := "text" }
          else ext
        let default_value := get_default_value ext.field_type text_content parts
        some (create_regular_field p0 element_id ext default_value cu.2 none)

/-- The `select_options_map` accumulator of the full parser. -/
abbrev SMap := List (String × List SelectOpt)

/-- Strip an optional text fragment, returning it as a singleton when both the
raw text and its stripped form are truthy (the
`if t and t.strip(): parts.append(t.strip())` idiom). -/
def strippedFragment : Option String → List String
  | Option.none => []
  | Option.some t => if t ≠ "" ∧ pyStrip t ≠ "" then [pyStrip t] else []

/-- Update the first list entry satisfying `pr` (the
`for f in fields_list: if ...: ...; break` idiom). -/
def updateFirstWhere (pr : α → Bool) (f : α → α) : List α → List α
  | [] => []
  | x :: xs => if pr x then f x :: xs else x :: updateFirstWhere pr f xs

/-- Source `process_element_to_field`: process one element, returning the
updated `fields_list` and `select_options_map` (explicit state passing for the
in-place list mutation of the source). -/
def process_element_to_field (element : XElem) (fields_list : List FormField)
    (sel_map : SMap) : List FormField × SMap :=
  let original_element_id := (element.getAttr "id").getD ""
  if original_element_id == "" then (fields_list, sel_map)
  else
    let text_parts :=
      strippedFragment element.text ++
        element.children.foldr
          (fun child acc => strippedFragment child.text ++ strippedFragment child.tail ++ acc) []
    let text_content := joinSep "\n" text_parts
    let eu := extract_link_url original_element_id
    let parts := pySplitChar '.' eu.1
    let base_id := parts.headD ""
    if parts.any (fun p => strStarts p "select_") then
      let option := create_select_option original_element_id element parts
      let mods := extract_select_modifiers parts
      let st1 : List FormField × SMap :=
        if (dget sel_map base_id).isNone then
          (fields_list ++ [create_select_field base_id original_element_id mods.editable],
           dictInsert base_id [] sel_map)
        else (fields_list, sel_map)
      let smap2 := dictInsert base_id ((dget st1.2 base_id).getD [] ++ [option]) st1.2
      let fields2 :=
        updateFirstWhere (fun f => f.id == base_id)
          (fun f =>
            update_select_field { f with options := (dget smap2 base_id).getD [] } option
              (is_element_visible element) mods)
          st1.1
      (fields2, smap2)
    else if ¬ validate_track_position parts then (fields_list, sel_map)
    else
      let ext := parse_field_extensions parts
      let default_value := get_default_value ext.field_type text_content parts
      let helper_text := (element.getAttr "data-helper").getD ""
      (fields_list ++
        [create_regular_field base_id original_element_id ext default_value eu.2
          (some helper_text)],
       sel_map)

mutual
/-- Strict descendants carrying an `id` attribute, in document order: the xpath
query `.//*[@id]` of `parse_svg_to_form_fields`. -/
def XElem.descWithId : XElem → List XElem
  | .mk _ _ _ cs => descWithIdL cs

def descWithIdL : List XElem → List XElem
  | [] => []
  | c :: cs =>
    (if (XElem.getAttr c "id").isSome then [c] else []) ++ XElem.descWithId c ++ descWithIdL cs
end

/-- Source `parse_svg_to_form_fields`, on an already-parsed document tree (the
source returns `[]` when the SVG text does not parse; document parsing itself is
outside the model). -/
def parse_svg_to_form_fields (root : XElem) : List FormField :=
  ((root.descWithId).foldl
      (fun (st : List FormField × SMap) el => process_element_to_field el st.1 st.2)
      ([], [])).1

example :
    (parse_field_from_id "First_Name" "John").map (fun f => (f.id, f.type, f.defaultValue)) =
      some ("First_Name", "text", PyVal.str "John") := by decide

example : (parse_field_from_id "Tracking_ID.gen_AUTO:(rn[8])" "").map
    (fun f => (f.id, f.type, f.generationRule)) =
      some ("Tracking_ID", "gen", some "AUTO:(rn[8])") := by decide

example : parse_field_from_id "Name.track_x.max_5" "t" = none := by decide

example : parse_field_from_id "" "x" = none := by decide

/-! ## svg_utils.py -/

/-- A patch dict: `id` locates the element, `attribute` names what to change,
`value` is the payload (a string, `None`, or the structured reorder directive). -/
structure Patch where
  id : Option String
  attr : Option String
  value : PyVal
  deriving DecidableEq, Repr

/-- One iteration of the `merge_svg_patches` loop: reorder patches are collected
separately, other patches with a truthy id and attribute are written into the
`merged` dict keyed by `(id, attribute)`. -/
def mergeStep (st : List ((Option String × Option String) × Patch) × List Patch)
    (p : Patch) : List ((Option String × Option String) × Patch) × List Patch :=
  if p.attr == some "reorder" then (st.1, st.2 ++ [p])
  else if truthyOS p.id && truthyOS p.attr then
    (dictInsert (p.id, p.attr) p st.1, st.2)
  else st

/-- Source `merge_svg_patches`. -/
def merge_svg_patches (patches : List Patch) : List Patch :=
  let st := patches.foldl mergeStep ([], [])
  st.1.map (fun kv => kv.2) ++ st.2

/-- The namespace map `apply_svg_patches` builds for a document that declares no
extra namespace mappings of its own (the two defaults are always added). -/
def NAMESPACES : List (String × String) :=
  [("svg", "http://www.w3.org/2000/svg"), ("xlink", "http://www.w3.org/1999/xlink")]

/-- Path of the first strict descendant whose `id` attribute equals `i`:
the xpath query `.//*[@id='i']` (first match in document order). -/
def firstDescById (root : XElem) (i : String) : Option (List Nat) :=
  (root.subPaths (fun e => e.getAttr "id" == some i)).head?

/-- Resolve the reorder reference per the source: try `beforeId` first, then
`afterId`, where the `if not ref_el` guard uses lxml element truthiness (a
childless element is falsy and lets `afterId` override).  Returns the reference
id together with the `move_after` flag. -/
def resolveReorderRef (svg_tree : XElem) (afterId beforeId : Option String) :
    Option (String × Bool) :=
  let refB : Option (List Nat) :=
    if truthyOS beforeId then firstDescById svg_tree (beforeId.getD "") else none
  let notRefB : Bool :=
    match refB.bind svg_tree.getAtPath with
    | some el => ¬ el.pyTruthy
    | none => true
  if notRefB && truthyOS afterId then
    match firstDescById svg_tree (afterId.getD "") with
    | some _ => some (afterId.getD "", false)
    | none => refB.map (fun _ => (beforeId.getD "", true))
  else refB.map (fun _ => (beforeId.getD "", true))

/-- First-colon split of a namespaced attribute name, Python `attribute.split(':', 1)`. -/
def splitColon (attrName : String) : Option (String × String) :=
  (findSubIdx [':'] attrName.data).map
    (fun i => (String.mk (attrName.data.take i), String.mk (attrName.data.drop (i + 1))))

/-- Source `set_element_attribute`, with the mutated element identified by its
path in the tree.  Returns the new tree and the boolean the source returns.
Elements are re-located by id after the reorder removal, which coincides with
the object identity the source relies on whenever document ids are unique. -/
def set_element_attribute (svg_tree : XElem) (path : List Nat) (attrName : String)
    (value : PyVal) : XElem × Bool :=
  match svg_tree.getAtPath path with
  | none => (svg_tree, false)
  | some element =>
    if attrName == "innerText" then
      (svg_tree.modifyAtPath (fun el => (el.setChildren []).setText (some value.pyStr)) path,
       true)
    else if attrName == "reorder" then
      match value with
      | .vdict afterId beforeId =>
        if path.isEmpty then (svg_tree, false)
        else
          match resolveReorderRef svg_tree afterId beforeId with
          | none => (svg_tree, false)
          | some ra =>
            let t1 := svg_tree.removeAtPath path
            match firstDescById t1 ra.1 with
            | none => (t1, true)
            | some rp =>
              match rp.getLast? with
              | none => (t1, true)
              | some ridx =>
                let ins_idx := if ra.2 then ridx + 1 else ridx
                (t1.modifyAtPath
                  (fun par => par.setChildren (listInsertIdx element par.children ins_idx))
                  rp.dropLast,
                 true)
      | _ => (svg_tree, false)
    else
      if value == PyVal.none || value == PyVal.str "" then
        if (element.getAttr attrName).isSome then
          (svg_tree.modifyAtPath (fun el => el.popAttr attrName) path, true)
        else (svg_tree, false)
      else
        match splitColon attrName with
        | some pl =>
          match dget NAMESPACES pl.1 with
          | some ns_uri =>
            (svg_tree.modifyAtPath
              (fun el => el.setAttr ("\x7b" ++ ns_uri ++ "\x7d" ++ pl.2) value.pyStr) path,
             true)
          | none =>
            (svg_tree.modifyAtPath (fun el => el.setAttr attrName value.pyStr) path, true)
        | none =>
          (svg_tree.modifyAtPath (fun el => el.setAttr attrName value.pyStr) path, true)

/-- The xpath probe sequence of `apply_svg_patches`: by `id`, by namespaced `id`
(the same match set in this model), then by `name`, then by `data-name`; the
first query with a nonempty result wins. -/
def findPatchTargets (svg_tree : XElem) (element_id : String) : List (List Nat) :=
  let q1 := svg_tree.subPaths (fun e => e.getAttr "id" == some element_id)
  if ¬ q1.isEmpty then q1
  else
    let q3 := svg_tree.subPaths (fun e => e.getAttr "name" == some element_id)
    if ¬ q3.isEmpty then q3
    else svg_tree.subPaths (fun e => e.getAttr "data-name" == some element_id)

/-- Source `apply_svg_patches` on an already-parsed tree (serialisation and the
fatal-parse-failure fallback live outside the model). -/
def apply_svg_patches (svg_tree : XElem) (patches : List Patch) : XElem :=
  if patches.isEmpty then svg_tree
  else
    patches.foldl
      (fun t patch =>
        if ¬ (truthyOS patch.id && truthyOS patch.attr) then t
        else
          let paths := findPatchTargets t (patch.id.getD "")
          paths.foldl
            (fun t2 p => (set_element_attribute t2 p (patch.attr.getD "") patch.value).1)
            t)
      svg_tree

example :
    merge_svg_patches
      [ { id := some "a", attr := some "fill", value := .str "red" },
        { id := some "a", attr := some "fill", value := .str "blue" } ] =
      [ { id := some "a", attr := some "fill", value := .str "blue" } ] := by decide

example :
    merge_svg_patches
      [ { id := some "a", attr := some "reorder", value := .vdict none (some "b") },
        { id := some "a", attr := some "fill", value := .str "blue" },
        { id := some "a", attr := some "reorder", value := .vdict (some "c") none } ] =
      [ { id := some "a", attr := some "fill", value := .str "blue" },
        { id := some "a", attr := some "reorder", value := .vdict none (some "b") },
        { id := some "a", attr := some "reorder", value := .vdict (some "c") none } ] := by
  decide

/-! ## svg_updater.py: dependency extraction -/

/-- Rightmost bracket candidate for the greedy regex
`(.+)\[(w|ch)(.+)\]` (anchored, with the final `]` already removed): returns
the characters before the bracket, the marker (`w` or `ch`), and the nonempty
pattern after the marker.  Greedy backtracking of `(.+)` means the rightmost
viable `[` wins, which the recursion mirrors by preferring a match in the tail. -/
def scanCandHere (c : Char) (rest : List Char) :
    Option (List Char × List Char × List Char) :=
  if c = '[' then
    match rest with
    | [] => none
    | d :: p1 =>
      if d = 'w' then (if p1 ≠ [] then some ([], ['w'], p1) else none)
      else if d = 'c' then
        match p1 with
        | [] => none
        | e :: p2 => if e = 'h' ∧ p2 ≠ [] then some ([], ['c', 'h'], p2) else none
      else none
  else none

def scanCand : List Char → Option (List Char × List Char × List Char)
  | [] => none
  | c :: rest =>
    Option.or ((scanCand rest).map (fun r => (c :: r.1, r.2.1, r.2.2)))
      (scanCandHere c rest)

/-- The anchored match `re.match(r"^(.+)\[(w|ch)(.+)\]$", depends_on)`:
field name, extraction type and extraction pattern. -/
def reMatchDep (s : String) : Option (String × String × String) :=
  if strEnds s "]" then
    match scanCand s.data.dropLast with
    | some r => if r.1 ≠ [] then some (String.mk r.1, String.mk r.2.1, String.mk r.2.2) else none
    | none => none
  else none

/-- Source `_extract_word`. -/
def extract_word (text : String) (pattern : String) : String :=
  let words := pyWords (pyStrip text)
  match pyInt pattern with
  | none => ""
  | some k =>
    let index := k - 1
    if 0 ≤ index ∧ index < (words.length : Int) then words.getD index.toNat "" else ""

/-- Python slice `s[a:b]` (single step), with negative-index normalisation. -/
def pySlice (s : String) (a b : Int) : String :=
  let n : Int := s.data.length
  let norm : Int → Nat := fun x => (if x < 0 then max 0 (n + x) else min x n).toNat
  String.mk ((s.data.take (norm b)).drop (norm a))

/-- Source `_extract_chars`. -/
def extract_chars (text : String) (pattern : String) : String :=
  if pattern.data.contains ',' then
    let indices := (pySplitChar ',' pattern).foldr
      (fun part acc =>
        match pyInt (pyStrip part) with
        | some k => (k - 1) :: acc
        | none => acc) []
    String.mk (indices.foldr
      (fun i acc =>
        if 0 ≤ i ∧ i < (text.data.length : Int) then
          match text.data.get? i.toNat with
          | some c => c :: acc
          | none => acc
        else acc) [])
  else if pattern.data.contains '-' then
    match (pySplitChar '-' pattern).map (fun x => pyInt (pyStrip x)) with
    | [some a, some b] => pySlice text (a - 1) b
    | _ => ""
  else
    match pyInt pattern with
    | none => ""
    | some k =>
      let index := k - 1
      if 0 ≤ index ∧ index < (text.data.length : Int) then
        match text.data.get? index.toNat with
        | some c => String.mk [c]
        | none => ""
      else ""

/-- Embedded image payloads are passed through unmodified. -/
def isImagePayload : PyVal → Bool
  | .str s => strStarts s "data:image/" || strStarts s "blob:"
  | _ => false

/-- Source `_extract_from_dependency`. -/
def extract_from_dependency (depends_on : String) (field_values : List (String × PyVal)) :
    String :=
  match reMatchDep depends_on with
  | some m =>
    let field_value := (dget field_values m.1).getD (.str "")
    if isImagePayload field_value then field_value.pyStr
    else
      let string_value := (pyOr field_value (.str "")).pyStr
      if m.2.1 == "w" then extract_word string_value m.2.2
      else extract_chars string_value m.2.2
  | none =>
    let field_value := (dget field_values depends_on).getD (.str "")
    if isImagePayload field_value then field_value.pyStr
    else (pyOr field_value (.str "")).pyStr

/-- Source `_bool_from_value`. -/
def bool_from_value : PyVal → Bool
  | .bool b => b
  | .int n => decide (n ≠ 0)
  | v =>
    let s := pyLower (pyStrip v.pyStr)
    s == "true" || s == "1" || s == "yes" || s == "y"

example : extract_from_dependency "Name[ch1-4]" [("Name", .str "HELLO")] = "HELL" := by decide

example : extract_from_dependency "Name[w2]" [("Name", .str "Ada Lovelace")] = "Lovelace" := by
  decide

example : extract_from_dependency "Name[w9]" [("Name", .str "Ada Lovelace")] = "" := by decide

example : extract_from_dependency "Name[ch1,3,99]" [("Name", .str "HELLO")] = "HL" := by decide

/-! ## svg_updater.py: transform normalisation and the renderer

The source computes rotation pivots with IEEE floats parsed out of attribute
strings.  Floating point is outside the scope of this embedding: the numeric
attribute values are modelled as integers (`pyFloatToInt`, integer halving for
the midpoint) and formatted with `intToStr`.  No theorem below depends on the
numeric content of a transform, only on which attributes are set or removed. -/

/-- Generic fuelled left-to-right non-overlapping rewriting engine used to model
the `re.sub` calls; a matcher returns the replacement and the rest of the input
after the matched span. -/
def rewriteAll (matcher : List Char → Option (List Char × List Char)) :
    Nat → List Char → List Char
  | _, [] => []
  | 0, s => s
  | f + 1, c :: rest =>
    match matcher (c :: rest) with
    | some r => r.1 ++ rewriteAll matcher f r.2
    | none => c :: rewriteAll matcher f rest

def dropTrailingWsL (l : List Char) : List Char := (l.reverse.dropWhile isPyWs).reverse

/-- Matcher for `translate\(([^,)]+)px\s*,\s*([^,)]+)px\)` with replacement
`translate(\1, \2)`. -/
def matchTranslate2 (l : List Char) : Option (List Char × List Char) :=
  if prefixOfL "translate(".data l then
    let r := l.drop 10
    let a := r.takeWhile (fun c => c ≠ ',' ∧ c ≠ ')')
    match r.drop a.length with
    | ',' :: r2 =>
      let aT := dropTrailingWsL a
      if prefixOfL "xp".data aT.reverse ∧ 2 < aT.length then
        let g1 := aT.take (aT.length - 2)
        let r3 := r2.dropWhile isPyWs
        let b := r3.takeWhile (fun c => c ≠ ',' ∧ c ≠ ')')
        match r3.drop b.length with
        | ')' :: r4 =>
          if prefixOfL "xp".data b.reverse ∧ 2 < b.length then
            some ("translate(".data ++ g1 ++ ", ".data ++ b.take (b.length - 2) ++ [')'], r4)
          else none
        | _ => none
      else none
    | _ => none
  else none

/-- Matcher for `translate\(([^,)]+)px\)` with replacement `translate(\1)`. -/
def matchTranslate1 (l : List Char) : Option (List Char × List Char) :=
  if prefixOfL "translate(".data l then
    let r := l.drop 10
    let a := r.takeWhile (fun c => c ≠ ',' ∧ c ≠ ')')
    match r.drop a.length with
    | ')' :: r2 =>
      if prefixOfL "xp".data a.reverse ∧ 2 < a.length then
        some ("translate(".data ++ a.take (a.length - 2) ++ [')'], r2)
      else none
    | _ => none
  else none

/-- Matcher for `rotate\(([^)]+)\)` with a replacement computed from the captured
group (used both by the `rotate_replacer` of `_normalize_transform` and by the
constant-replacement `re.sub` of the rotation pass). -/
def matchRotate (replF : List Char → List Char) (l : List Char) :
    Option (List Char × List Char) :=
  if prefixOfL "rotate(".data l then
    let r := l.drop 7
    let p1 := r.takeWhile (fun c => c ≠ ')')
    match r.drop p1.length with
    | ')' :: rest => if p1 ≠ [] then some (replF p1, rest) else none
    | _ => none
  else none

/-- The `rotate_replacer` of `_normalize_transform`. -/
def rotateReplacement (has_dimensions : Bool) (cx cy : Int) (p1 : List Char) : List Char :=
  let angle := pyStripL (replaceAllL "deg".data [] p1.length p1)
  if ¬ p1.contains ',' ∧ has_dimensions then
    "rotate(".data ++ angle ++ ", ".data ++ (intToStr cx).data ++ ", ".data ++
      (intToStr cy).data ++ [')']
  else
    let tailPart :=
      if p1.contains ',' then [','] ++ (p1.dropWhile (fun c => c ≠ ',')).drop 1 else []
    "rotate(".data ++ angle ++ tailPart ++ [')']

/-- Matcher for `key\s*:\s*[^;]+;?` (removal of a style declaration). -/
def matchDecl (key : String) (l : List Char) : Option (List Char × List Char) :=
  if prefixOfL key.data l then
    match (l.drop key.data.length).dropWhile isPyWs with
    | ':' :: r2 =>
      let v := r2.takeWhile (fun c => c ≠ ';')
      if v ≠ [] then
        match r2.drop v.length with
        | ';' :: rest => some ([], rest)
        | rest => some ([], rest)
      else none
    | _ => none
  else none

def tryTransformAt (l : List Char) : Option (List Char) :=
  if prefixOfL "transform".data l then
    match (l.drop 9).dropWhile isPyWs with
    | ':' :: r2 =>
      let g := r2.takeWhile (fun c => c ≠ ';')
      if g ≠ [] then some g else none
    | _ => none
  else none

/-- The `re.search(r"transform\s*:\s*([^;]+)", style)` scan: captured group of
the first match (the caller strips it, so leading whitespace in the group is
immaterial). -/
def findTransformDecl : List Char → Option (List Char)
  | [] => none
  | c :: rest =>
    match tryTransformAt (c :: rest) with
    | some g => some g
    | none => findTransformDecl rest

/-- Numeric attribute of an element, Python `float(el.get(k, 0))` under the
integer model. -/
def elNum (el : XElem) (k : String) : Option Int :=
  match el.getAttr k with
  | some s => pyFloatToInt s
  | none => some 0

/-- Source `_normalize_transform`. -/
def normalize_transform (el : XElem) : XElem :=
  let style := (el.getAttr "style").getD ""
  let attr_transform := (el.getAttr "transform").getD ""
  match findTransformDecl style.data with
  | none => el
  | some g =>
    let style_transform := pyStripL g
    let xywh : Int × Int × Int × Int :=
      match elNum el "x", elNum el "y", elNum el "width", elNum el "height" with
      | some x, some y, some w, some h => (x, y, w, h)
      | _, _, _, _ => (0, 0, 0, 0)
    let cx := xywh.1 + xywh.2.2.1 / 2
    let cy := xywh.2.1 + xywh.2.2.2 / 2
    let has_dimensions := (el.getAttr "width").isSome ∧ (el.getAttr "height").isSome
    let n1 := rewriteAll matchTranslate2 style_transform.length style_transform
    let n2 := rewriteAll matchTranslate1 n1.length n1
    let n3 := rewriteAll (matchRotate (rotateReplacement has_dimensions cx cy)) n2.length n2
    let combined := pyStripL (attr_transform.data ++ [' '] ++ n3)
    let el1 := el.setAttr "transform" (String.mk combined)
    let s1 := pyStrip (String.mk (rewriteAll (matchDecl "transform") style.data.length style.data))
    let s2 := pyStrip (String.mk (rewriteAll (matchDecl "transform-origin") s1.data.length s1.data))
    let s3 := pyStrip (String.mk (rewriteAll (matchDecl "transform-box") s2.data.length s2.data))
    if s3 ≠ "" then el1.setAttr "style" s3 else el1.popAttr "style"

def tryRotateNumAt (l : List Char) : Option Int :=
  if prefixOfL "rotate".data l then
    match (l.drop 6).dropWhile isPyWs with
    | '(' :: r2 =>
      let r3 := r2.dropWhile isPyWs
      let signed : Bool × List Char :=
        match r3 with
        | '-' :: t => (true, t)
        | t => (false, t)
      let ds := signed.2.takeWhile Char.isDigit
      if ds ≠ [] then
        let n : Nat := ds.foldl (fun acc c => acc * 10 + (c.toNat - 48)) 0
        some (if signed.1 then -(n : Int) else (n : Int))
      else none
    | _ => none
  else none

/-- The `re.search(r"rotate\s*\(\s*(-?\d+\.?\d*)", existing_transform)` scan,
truncating the captured number to an integer under the numeric model. -/
def findRotateNum : List Char → Option Int
  | [] => none
  | c :: rest =>
    match tryRotateNumAt (c :: rest) with
    | some n => some n
    | none => findRotateNum rest

def containsSub (s pat : String) : Bool := (findSubIdx pat.data s.data).isSome

/-- The rotation pass of the upload/file/sign branch. -/
def applyRotation (el : XElem) (rotation : Int) : XElem :=
  match elNum el "x", elNum el "y", elNum el "width", elNum el "height" with
  | some x, some y, some w, some h =>
    let cx := x + w / 2
    let cy := y + h / 2
    let existing_transform := (el.getAttr "transform").getD ""
    let base_rotation := (findRotateNum existing_transform.data).getD 0
    let total_rotation := base_rotation + rotation
    let rotation_str :=
      if total_rotation ≠ 0 then
        "rotate(" ++ intToStr total_rotation ++ ", " ++ intToStr cx ++ ", " ++ intToStr cy ++ ")"
      else ""
    let new_transform :=
      if containsSub existing_transform "rotate(" then
        pyStrip (String.mk (rewriteAll (matchRotate (fun _ => rotation_str.data))
          existing_transform.data.length existing_transform.data))
      else if rotation_str ≠ "" then pyStrip (existing_transform ++ " " ++ rotation_str)
      else existing_transform
    if new_transform ≠ "" then el.setAttr "transform" new_transform
    else el.popAttr "transform"
  | _, _, _, _ => el

/-- The upload/file/sign branch of the renderer, acting on the located element. -/
def renderUploadEl (field_map : List (String × FormField)) (field : FormField)
    (value : PyVal) (el0 : XElem) : XElem :=
  let el1 := normalize_transform el0
  let el2 :=
    match value with
    | .str s =>
      if s ≠ "" ∧ pyStrip s ≠ "" then
        (el1.setAttr "\x7bhttp://www.w3.org/1999/xlink\x7dhref" s).setAttr
          "preserveAspectRatio" "none"
      else el1
    | _ => el1
  let rotation_val : Option Int :=
    match field.rotation with
    | some r => some r
    | none =>
      match field.dependsOn with
      | some d =>
        if d ≠ "" then
          match dget field_map (String.mk (d.data.takeWhile (fun c => c ≠ '['))) with
          | some parent => parent.rotation
          | none => none
        else none
      | none => none
  match rotation_val with
  | none => el2
  | some rotation => applyRotation el2 rotation

/-- A submitted field update `{id, value}`. -/
structure FieldUpdate where
  id : Option String
  value : Option PyVal
  deriving DecidableEq, Repr

/-- The element lookup dict built over `root.iter()` (root first, then the
descendants in document order; a later duplicate id overwrites in place),
with elements identified by their paths. -/
def elementPathMap (root : XElem) : List (String × List Nat) :=
  (([] : List Nat) :: root.subPaths (fun _ => true)).foldl
    (fun m p =>
      match (root.getAtPath p).bind (fun e => e.getAttr "id") with
      | some i => if i ≠ "" then dictInsert i p m else m
      | none => m)
    []

/-- The per-field mutation step of `update_svg_from_field_updates`. -/
def renderField (field_map : List (String × FormField))
    (field_values computed_values : List (String × PyVal))
    (element_map : List (String × List Nat)) (svg : XElem) (field : FormField) : XElem :=
  let value := (dget computed_values field.id).getD (.str "")
  if ¬ field.options.isEmpty then
    let svg1 := field.options.foldl
      (fun t opt =>
        if opt.svgElementId == "" then t
        else
          match dget element_map opt.svgElementId with
          | none => t
          | some p =>
            t.modifyAtPath
              (fun el =>
                (((el.popAttr "style").setAttr "opacity" "0").setAttr "visibility"
                    "hidden").setAttr "display" "none")
              p)
      svg
    let field_value := ((dget field_values field.id).getD (.str "")).pyStr
    match field.options.find? (fun opt => opt.value == field_value) with
    | some sopt =>
      if sopt.svgElementId ≠ "" then
        match dget element_map sopt.svgElementId with
        | some p =>
          svg1.modifyAtPath
            (fun el => ((el.setAttr "opacity" "1").setAttr "visibility" "visible").popAttr
              "display")
            p
        | none => svg1
      else svg1
    | none => svg1
  else
    if field.svgElementId == "" then svg
    else
      match dget element_map field.svgElementId with
      | none => svg
      | some p =>
        let field_type := pyLower (if field.type ≠ "" then field.type else "text")
        if field_type == "upload" || field_type == "file" || field_type == "sign" then
          svg.modifyAtPath (renderUploadEl field_map field value) p
        else if field_type == "hide" then
          svg.modifyAtPath
            (fun el =>
              if bool_from_value value then
                ((el.setAttr "opacity" "1").setAttr "visibility" "visible").popAttr "display"
              else
                ((el.setAttr "opacity" "0").setAttr "visibility" "hidden").setAttr "display"
                  "none")
            p
        else
          svg.modifyAtPath
            (fun el =>
              (el.setChildren []).setText
                (some (match value with | .none => "" | v => v.pyStr)))
            p

/-- Source `update_svg_from_field_updates` on an already-parsed tree.  The
django cache consulted by the source is external keyed storage of previously
computed results of this same pure function and is not modelled; the
parse-failure fallback (return the inputs unchanged) lives outside the tree
model. -/
def update_svg_from_field_updates (svg : XElem) (form_fields : List FormField)
    (field_updates : List FieldUpdate) : XElem × List FormField :=
  if form_fields.isEmpty then (svg, form_fields)
  else
    let field_map := form_fields.foldl (fun m f => dictInsert f.id f m) []
    let fv0 := form_fields.foldl
      (fun m f => dictInsert f.id (pyOr f.currentValue (pyOr f.defaultValue (.str ""))) m) []
    let field_values := field_updates.foldl
      (fun m u =>
        match u.id with
        | some fid =>
          if (dget field_map fid).isSome then dictInsert fid (u.value.getD (.str "")) m else m
        | none => m)
      fv0
    let computed_values := form_fields.foldl
      (fun m f =>
        match f.dependsOn with
        | some d =>
          if d ≠ "" then dictInsert f.id (PyVal.str (extract_from_dependency d field_values)) m
          else dictInsert f.id ((dget field_values f.id).getD (.str "")) m
        | none => dictInsert f.id ((dget field_values f.id).getD (.str "")) m)
      []
    let element_map := elementPathMap svg
    let svg2 := form_fields.foldl
      (renderField field_map field_values computed_values element_map) svg
    let fields2 := form_fields.map
      (fun f =>
        match dget computed_values f.id with
        | some v => { f with currentValue := v }
        | none => f)
    (svg2, fields2)

/-! ## svg_sync.py -/

/-- Values of the `element_id_map`: a plain field index, or a pair of field
index and option value for a select option. -/
inductive MapVal : Type where
  | idx : Nat → MapVal
  | optRef : Nat → String → MapVal
  deriving DecidableEq, Repr

/-- Build the `element_id_map` lookup over the copied field list. -/
def buildElementIdMap (fields : List FormField) : List (String × MapVal) :=
  (fields.foldl
      (fun (st : List (String × MapVal) × Nat) field =>
        let m1 :=
          if field.svgElementId ≠ "" then
            dictInsert field.svgElementId (MapVal.idx st.2) st.1
          else st.1
        let m2 :=
          if field.type == "select" then
            field.options.foldl
              (fun m opt =>
                if opt.svgElementId ≠ "" then
                  dictInsert opt.svgElementId (MapVal.optRef st.2 opt.value) m
                else m)
              m1
          else m1
        (m2, st.2 + 1))
      ([], 0)).1

/-- The `elements_with_ids` dict built over `svg_root.iter()`. -/
def elementsWithIds (root : XElem) : List (String × XElem) :=
  root.allElems.foldl
    (fun m el =>
      match el.getAttr "id" with
      | some i => if i ≠ "" then dictInsert i el m else m
      | none => m)
    []

/-- Python `old.update(new)` for a field dict produced by
`create_regular_field`: keys that dict always carries overwrite, keys it adds
only for truthy values (the `Option` fields, plus the grayscale pair) overwrite
exactly when present, and keys it never carries (`options`, `rotation`) keep
their old values. -/
def FormField.updateWith (old new : FormField) : FormField :=
  { id := new.id
    name := new.name
    type := new.type
    svgElementId := new.svgElementId
    defaultValue := new.defaultValue
    currentValue := new.currentValue
    isTrackingId := new.isTrackingId
    editable := new.editable
    trackingRole := new.trackingRole <|> old.trackingRole
    max := new.max <|> old.max
    dependsOn := new.dependsOn <|> old.dependsOn
    dateFormat := new.dateFormat <|> old.dateFormat
    generationRule := new.generationRule <|> old.generationRule
    maxGeneration := new.maxGeneration <|> old.maxGeneration
    link := new.link <|> old.link
    helperText := new.helperText <|> old.helperText
    requiresGrayscale := new.requiresGrayscale || old.requiresGrayscale
    grayscaleIntensity :=
      if new.requiresGrayscale then new.grayscaleIntensity else old.grayscaleIntensity
    options := old.options
    rotation := old.rotation }

/-- Structural deep copy of an option (models the JSON round trip). -/
def deepCopyOpt (o : SelectOpt) : SelectOpt :=
  { value := o.value, label := o.label, svgElementId := o.svgElementId,
    displayText := o.displayText }

/-- Structural deep copy of a field dict (models
`json.loads(json.dumps(form_fields))`, which rebuilds every dict and list). -/
def deepCopyField (f : FormField) : FormField :=
  { id := f.id, name := f.name, type := f.type, svgElementId := f.svgElementId,
    defaultValue := f.defaultValue, currentValue := f.currentValue,
    isTrackingId := f.isTrackingId, editable := f.editable,
    trackingRole := f.trackingRole, max := f.max, dependsOn := f.dependsOn,
    dateFormat := f.dateFormat, generationRule := f.generationRule,
    maxGeneration := f.maxGeneration, link := f.link, helperText := f.helperText,
    requiresGrayscale := f.requiresGrayscale, grayscaleIntensity := f.grayscaleIntensity,
    options := f.options.map deepCopyOpt, rotation := f.rotation }

def deepCopyFields (fs : List FormField) : List FormField := fs.map deepCopyField

/-- The instance the sync function reads: its stored field list and the parsed
SVG tree, when one is available (`_raw_svg_data` or a readable `svg_file`;
`none` covers both the no-content and the parse-failure case). -/
structure SyncInstance where
  form_fields : List FormField
  svgTree : Option XElem

/-- The id-change branch of the sync loop. -/
def syncIdStep (element_id_map : List (String × MapVal)) (ewi : List (String × XElem))
    (st : List FormField × Bool) (old_id : String) (p_val : PyVal) :
    List FormField × Bool :=
  let new_id : Option String := match p_val with | .str s => some s | _ => none
  let fromNew := new_id.bind (fun n => dget ewi n)
  let element : Option XElem :=
    match fromNew with
    | some el => if el.pyTruthy then some el else dget ewi old_id
    | none => dget ewi old_id
  match element with
  | none => st
  | some el =>
    let t := process_element_to_field el [] []
    match t.1 with
    | new_field_data :: _ =>
      let base_id := new_field_data.id
      let orig_field_idx := st.1.findIdx? (fun f => f.svgElementId == old_id)
      let target_field_idx := st.1.findIdx? (fun f => f.id == base_id)
      if new_field_data.type == "select" then
        match new_field_data.options with
        | new_opt :: _ =>
          match target_field_idx with
          | some ti =>
            match st.1.get? ti with
            | some field =>
              let pred := fun (o : SelectOpt) =>
                o.svgElementId == old_id ||
                  (match new_id with | some n => o.svgElementId == n | none => false)
              let options2 :=
                if field.options.any pred then
                  updateFirstWhere pred (fun _ => new_opt) field.options
                else field.options ++ [new_opt]
              let fields2 := st.1.set ti { field with options := options2 }
              let fields3 :=
                match orig_field_idx with
                | some oi => if oi ≠ ti then fields2.eraseIdx oi else fields2
                | none => fields2
              (fields3, true)
            | none => st
          | none => (st.1 ++ [new_field_data], true)
        | [] => st
      else
        match orig_field_idx with
        | some oi =>
          match st.1.get? oi with
          | some old => (st.1.set oi (FormField.updateWith old new_field_data), true)
          | none => st
        | none => (st.1 ++ [new_field_data], true)
    | [] =>
      match dget element_id_map old_id with
      | some (MapVal.idx i) => (st.1.eraseIdx i, true)
      | some (MapVal.optRef _ _) => st
      | none => st

/-- One iteration of the patch loop of `sync_form_fields_with_patches`. -/
def syncStep (element_id_map : List (String × MapVal)) (ewi : List (String × XElem))
    (st : List FormField × Bool) (patch : Patch) : List FormField × Bool :=
  if ¬ truthyOS patch.id then st
  else
    let pid := patch.id.getD ""
    if patch.attr == some "innerText" then
      let match_idx : Option MapVal :=
        match dget element_id_map pid with
        | some v => some v
        | none =>
          (element_id_map.find? (fun kv => pyLower kv.1 == pyLower pid)).map (fun kv => kv.2)
      match match_idx with
      | some (MapVal.optRef field_idx opt_val) =>
        match st.1.get? field_idx with
        | some field =>
          let anyMatch := field.options.any (fun opt => opt.value == opt_val)
          let field2 :=
            { field with
              options := field.options.map
                (fun opt =>
                  if opt.value == opt_val then
                    { opt with displayText := patch.value, label := patch.value }
                  else opt) }
          (st.1.set field_idx field2, st.2 || anyMatch)
        | none => st
      | some (MapVal.idx i) =>
        match st.1.get? i with
        | some field =>
          (st.1.set i { field with defaultValue := patch.value, currentValue := patch.value },
           true)
        | none => st
      | none => st
    else if patch.attr == some "id" && ¬ ewi.isEmpty then
      syncIdStep element_id_map ewi st pid patch.value
    else st

/-- Source `sync_form_fields_with_patches`.  The source never writes to the
instance: with patches present it works on a JSON deep copy of the stored
field list, with no patches it returns the stored list itself. -/
def sync_form_fields_with_patches (inst : SyncInstance) (patches : List Patch) :
    List FormField × Bool :=
  let form_fields := inst.form_fields
  if patches.isEmpty then (form_fields, false)
  else
    let updated_fields := deepCopyFields form_fields
    let element_id_map := buildElementIdMap updated_fields
    let has_structural_changes := patches.any (fun p => p.attr == some "id")
    let elements_with_ids : List (String × XElem) :=
      if has_structural_changes then
        match inst.svgTree with
        | some root => elementsWithIds root
        | none => []
      else []
    patches.foldl (syncStep element_id_map elements_with_ids) (updated_fields, false)

/-- A field dict with every key at its absent-key model default (fixtures below
override the keys the stored JSON actually carries). -/
def emptyFormField : FormField :=
  { id := "", name := "", type := "", svgElementId := "", defaultValue := .str "",
    currentValue := .str "", isTrackingId := false, editable := false, trackingRole := none,
    max := none, dependsOn := none, dateFormat := none, generationRule := none,
    maxGeneration := none, link := none, helperText := none, requiresGrayscale := false,
    grayscaleIntensity := none, options := [], rotation := none }

def companyField : FormField :=
  { emptyFormField with
    id := "Company", type := "text", svgElementId := "Company",
    defaultValue := .str "Old Name", currentValue := .str "Old Name", name := "Company" }

example :
    (sync_form_fields_with_patches { form_fields := [companyField], svgTree := none }
        [ { id := some "Company", attr := some "innerText", value := .str "New Name" } ]).1.map
        (fun f => (f.defaultValue, f.currentValue)) =
      [(PyVal.str "New Name", PyVal.str "New Name")] := by decide

def aliceField : FormField :=
  { emptyFormField with
    id := "First_Name", type := "text", svgElementId := "First_Name",
    defaultValue := .str "", currentValue := .str "Alice", name := "First Name" }

def aliceSvg : XElem :=
  .mk [] none none [ .mk [("id", "First_Name")] (some "Bob") none [] ]

example :
    (sync_form_fields_with_patches { form_fields := [aliceField], svgTree := some aliceSvg }
        [ { id := some "First_Name", attr := some "id", value := .str "First_Name.max_50" } ]).1.map
        (fun f => (f.currentValue, f.type, f.max)) =
      [(PyVal.str "Bob", "First_Name", (none : Option Int))] := by decide

/-- The hide mutation of the select branch of `renderField`: clear the inline
style, then set `opacity=0`, `visibility=hidden`, `display=none`. -/
def hideEl (el : XElem) : XElem :=
  (((el.popAttr "style").setAttr "opacity" "0").setAttr "visibility" "hidden").setAttr
    "display" "none"

/-- The reveal mutation of the select branch of `renderField`: set `opacity=1`,
`visibility=visible`, remove `display`. -/
def showEl (el : XElem) : XElem :=
  ((el.setAttr "opacity" "1").setAttr "visibility" "visible").popAttr "display"

/-- Claim-side count: how many elements of the document belong to one of the
select field options and carry `visibility=visible`. -/
def visibleOptionCount (svg : XElem) (f : FormField) : Nat :=
  (svg.allElems.filter (fun e =>
    f.options.any (fun opt => e.getAttr "id" == some opt.svgElementId) &&
    (e.getAttr "visibility" == some "visible"))).length

/-- Claim-side resolved value of a field when no update targets it: the stored
current value, else the default value, else the empty string, rendered as the
string the select matcher compares against. -/
def selectResolvedValue (f : FormField) : String :=
  (pyOr f.currentValue (pyOr f.defaultValue (.str ""))).pyStr

/-- A select field over Yes/No options whose stored value matches neither. -/
def nopeField : FormField :=
  { emptyFormField with
    id := "Status", name := "Status", type := "select", svgElementId := "Status",
    currentValue := .str "Nope",
    options :=
      [ { value := "Yes", label := .str "Yes", svgElementId := "Status.select_Yes",
          displayText := .str "Yes" },
        { value := "No", label := .str "No", svgElementId := "Status.select_No",
          displayText := .str "No" } ] }

def nopeSvg : XElem :=
  .mk [] none none
    [ .mk [("id", "Status.select_Yes")] none none [],
      .mk [("id", "Status.select_No")] none none [] ]

def yesOpt : SelectOpt :=
  { value := "Yes", label := .str "Yes", svgElementId := "Status.select_Yes",
    displayText := .str "Yes" }

def yesEl : XElem := .mk [("id", "Status.select_Yes")] none none []

/-- A select field over a single Yes option whose stored value matches it. -/
def yesField : FormField :=
  { emptyFormField with
    id := "Status", name := "Status", type := "select", svgElementId := "Status",
    currentValue := .str "Yes", options := [yesOpt] }

/-! ## Supporting lemmas -/

theorem splitCharL_ne_nil (sep : Char) (l : List Char) : splitCharL sep l ≠ [] := by
  cases l with
  | nil => simp [splitCharL]
  | cons c rest =>
    simp only [splitCharL]
    cases h : splitCharL sep rest with
    | nil => simp
    | cons g gs => by_cases hc : c = sep <;> simp [hc]

theorem pySplitChar_ne_nil (sep : Char) (s : String) : pySplitChar sep s ≠ [] := by
  simp [pySplitChar, splitCharL_ne_nil]

theorem validate_false_of_dropLast_any (parts : List String)
    (h : parts.dropLast.any (fun p => strStarts p "track_") = true) :
    validate_track_position parts = false := by
  induction parts with
  | nil => simp at h
  | cons p rest ih =>
    cases rest with
    | nil => simp at h
    | cons q rs =>
      rw [List.dropLast_cons₂, List.any_cons] at h
      rcases Bool.or_eq_true_iff.mp h with hp | hrest
      · simp [validate_track_position, findTrackIdx, hp]
      · have hv := ih hrest
        cases hp2 : strStarts p "track_" with
        | true => simp [validate_track_position, findTrackIdx, hp2]
        | false =>
          simp only [validate_track_position] at hv ⊢
          rw [show findTrackIdx (p :: q :: rs) =
              Option.map (fun i => i + 1) (findTrackIdx (q :: rs)) from by
            simp [findTrackIdx, hp2]]
          cases hidx : findTrackIdx (q :: rs) with
          | none => rw [hidx] at hv; simp at hv
          | some i =>
            rw [hidx] at hv
            simp only [Option.map, List.length_cons, Nat.add_sub_cancel] at hv ⊢
            simp only [beq_eq_false_iff_ne, ne_eq] at hv ⊢
            omega

/-! ## Claim C6 -/

/-- Claim C6: every identifier accepted by `parse_field_from_id` is stored back
verbatim as the field's `svgElementId`, including any `.link_` suffix and all
extension parts. -/
theorem c6_svg_element_id_roundtrip (s t : String) (f : FormField)
    (h : parse_field_from_id s t = some f) : f.svgElementId = s := by
  unfold parse_field_from_id at h
  split at h
  · exact Option.noConfusion h
  · split at h
    · exact Option.noConfusion h
    · dsimp only at h
      split at h
      · exact Option.noConfusion h
      · split at h
        · exact Option.noConfusion h
        · split at h
          · exact Option.noConfusion h
          · cases h
            rfl

/-- Concrete run of the C6 round-trip theorem on the identifier
`Name.max_5.link_https://x.y/z`. -/
theorem c6_svg_element_id_roundtrip_witness :
    (parse_field_from_id "Name.max_5.link_https://x.y/z" "v").map
        (fun f => f.svgElementId) = some "Name.max_5.link_https://x.y/z" := by
  rcases hf : parse_field_from_id "Name.max_5.link_https://x.y/z" "v" with _ | f
  · exact absurd hf (by decide)
  · simp [c6_svg_element_id_roundtrip "Name.max_5.link_https://x.y/z" "v" f hf]

/-! ## Claim C7 -/

/-- A `track_` part occurs at a dot-separated position other than the last one
(positions taken over the grammar parts, i.e. after the `.link_` URL suffix has
been stripped, per the grammar of section 4.1). -/
def misplacedTrack (s : String) : Bool :=
  ((pySplitChar '.' (extract_link_url s).1).dropLast).any (fun p => strStarts p "track_")

/-- Claim C7: an identifier with a `track_` part at a non-final position is
rejected by the grammar entry point (`parse_field_from_id` returns `none`), and
the full parser skips such an element (stated for non-select identifiers: an
identifier with a `select_` part is routed to the select-option path before the
track check and is not parsed as a field). -/
theorem c7_misplaced_track_rejected (s t : String) (element : XElem)
    (fields : List FormField) (smap : SMap)
    (h : misplacedTrack s = true)
    (hid : element.getAttr "id" = some s)
    (hsel : ((pySplitChar '.' (extract_link_url s).1).any
      (fun p => strStarts p "select_")) = false) :
    parse_field_from_id s t = none ∧
      process_element_to_field element fields smap = (fields, smap) := by
  unfold misplacedTrack at h
  have hval := validate_false_of_dropLast_any _ h
  constructor
  · unfold parse_field_from_id
    split
    · rfl
    · split
      · rfl
      · dsimp only
        cases hp : pySplitChar '.' (extract_link_url s).1 with
        | nil => rfl
        | cons p0 ps =>
          rw [hp] at hval
          dsimp only
          split
          · rfl
          · rw [if_pos (by simp [hval])]
  · unfold process_element_to_field
    rw [hid]
    dsimp only
    split
    · rfl
    · rw [if_neg (by simp [hsel]), if_pos (by simp [hval])]

/-- Concrete run of the C7 theorem on `Name.track_x.max_5`. -/
theorem c7_misplaced_track_rejected_witness :
    parse_field_from_id "Name.track_x.max_5" "t" = none ∧
      process_element_to_field (.mk [("id", "Name.track_x.max_5")] none none []) [] [] =
        ([], []) :=
  c7_misplaced_track_rejected "Name.track_x.max_5" "t"
    (.mk [("id", "Name.track_x.max_5")] none none []) [] []
    (by decide) (by decide) (by decide)

/-! ## Claim C2 -/

/-- A part that sets a field type per the grammar: a declared type name, a
`hide` part, `tracking_id`, or a `date_` / `gen_` extension. -/
def setsFieldType (part : String) : Bool :=
  FIELD_TYPES.contains part || strStarts part "hide" || part == "tracking_id" ||
    strStarts part "date_" || strStarts part "gen_"

theorem extStep_preserves_type (parts : List String) (st : FieldExt) (part : String)
    (h : setsFieldType part = false) :
    (extStep parts st part).field_type = st.field_type := by
  simp only [setsFieldType, Bool.or_eq_false_iff] at h
  obtain ⟨⟨⟨⟨hty, hhide⟩, htid⟩, hdate⟩, hgen⟩ := h
  unfold extStep
  by_cases c1 : strStarts part "max_" = true
  · rw [if_pos c1]
    dsimp only
    split
    · rfl
    · split <;> rfl
  · rw [if_neg c1]
    by_cases c2 : strStarts part "depends_" = true
    · rw [if_pos c2]
    · rw [if_neg c2]
      by_cases c3 : strStarts part "track_" = true
      · rw [if_pos c3]
        split <;> rfl
      · rw [if_neg c3, if_neg (by simp [hdate]), if_neg (by simp [hgen]),
          if_neg (by simp [htid])]
        by_cases c7 : part == "editable"
        · rw [if_pos c7]
        · rw [if_neg c7]
          by_cases c8 : part == "grayscale"
          · rw [if_pos c8]
          · rw [if_neg c8]
            by_cases c9 : strStarts part "grayscale_" = true
            · rw [if_pos c9]
              dsimp only
              split <;> rfl
            · rw [if_neg c9, if_neg (by simp only [hhide, hty, Bool.or_self]; simp)]

theorem foldl_extStep_preserves_type (parts rest : List String) (st : FieldExt)
    (h : ∀ part ∈ rest, setsFieldType part = false) :
    (rest.foldl (extStep parts) st).field_type = st.field_type := by
  induction rest generalizing st with
  | nil => rfl
  | cons p ps ih =>
    rw [List.foldl_cons, ih _ (fun q hq => h q (List.mem_cons_of_mem p hq)),
      extStep_preserves_type parts st p (h p (List.mem_cons_self p ps))]

/-- Counterexample to claim C2: a full parse (`parse_svg_to_form_fields`) of a
document element with identifier `First_Name` and text `John` yields a field
whose `type` is the base identifier `First_Name`, not `text`. -/
theorem c2_counterexample :
    ((parse_svg_to_form_fields
        (.mk [] none none [.mk [("id", "First_Name")] (some "John") none []])).map
      (fun f => (f.id, f.type, f.defaultValue)) =
        [("First_Name", "First_Name", PyVal.str "John")]) ∧
      ¬ ((parse_svg_to_form_fields
          (.mk [] none none [.mk [("id", "First_Name")] (some "John") none []])).map
        (fun f => f.type) = ["text"]) := by
  constructor
  · decide
  · decide

/-- Claim C2 as amended: when no extension part sets a field type, the full
parser (`parse_field_extensions`, used by `process_element_to_field`) leaves
`field_type` equal to the base part `parts[0]`; only the id-only entry point
`parse_field_from_id` normalises unknown types to `text`, and it does satisfy
the `First_Name`/`John` scenario. -/
theorem c2_full_parse_type_amended :
    (∀ (p0 : String) (rest : List String),
        (∀ part ∈ rest, setsFieldType part = false) →
        (parse_field_extensions (p0 :: rest)).field_type = p0) ∧
      ((parse_field_from_id "First_Name" "John").map
          (fun f => (f.id, f.type, f.defaultValue)) =
        some ("First_Name", "text", PyVal.str "John")) := by
  constructor
  · intro p0 rest h
    unfold parse_field_extensions
    dsimp only
    split
    · exact foldl_extStep_preserves_type (p0 :: rest) rest _ h
    · exact foldl_extStep_preserves_type (p0 :: rest) rest _ h
  · decide

/-- Concrete run of the C2 amended theorem: `Town.max_50.editable` keeps
`field_type = "Town"` through the extension fold. -/
theorem c2_full_parse_type_amended_witness :
    (parse_field_extensions ["Town", "max_50", "editable"]).field_type = "Town" :=
  c2_full_parse_type_amended.1 "Town" ["max_50", "editable"] (by decide)

/-! ## Claims C10 and C1 -/

theorem deepCopyFields_id (fs : List FormField) : deepCopyFields fs = fs := by
  have hopt : deepCopyOpt = id := funext fun o => rfl
  have hfld : deepCopyField = id := by
    funext f
    unfold deepCopyField
    rw [hopt, List.map_id]
    rfl
  unfold deepCopyFields
  rw [hfld, List.map_id]

/-- Claim C10: the sync engine never mutates the stored field list.  With an
empty patch batch it returns the stored list itself together with
`changed = false`; with patches present every write in the source goes to the
JSON deep copy (`deepCopyFields` in this embedding, taken at the start of
`sync_form_fields_with_patches`), and that copy reproduces the stored list
value for value. -/
theorem c10_sync_preserves_input :
    (∀ inst : SyncInstance,
        sync_form_fields_with_patches inst [] = (inst.form_fields, false)) ∧
      (∀ fs : List FormField, deepCopyFields fs = fs) :=
  ⟨fun _ => rfl, deepCopyFields_id⟩

/-- Claim C1 (code bug): the failing input.  A stored field `First_Name` holds
the in-progress value `Alice`; the stored SVG element `First_Name` carries the
text `Bob`; the metadata-only patch renames the identifier to
`First_Name.max_50` (same base id).  The sync engine re-parses the stored
element and overwrites `currentValue` with the element text `Bob`, losing
`Alice` — the spec (and the repository's own regression test) require `Alice`
to be preserved. -/
theorem c1_sync_loses_current_value_on_id_change :
    ((sync_form_fields_with_patches { form_fields := [aliceField], svgTree := some aliceSvg }
        [{ id := some "First_Name", attr := some "id",
           value := .str "First_Name.max_50" }]).2 = true) ∧
      ((sync_form_fields_with_patches { form_fields := [aliceField], svgTree := some aliceSvg }
          [{ id := some "First_Name", attr := some "id",
             value := .str "First_Name.max_50" }]).1.map (fun f => f.currentValue) =
        [PyVal.str "Bob"]) ∧
      ¬ ((sync_form_fields_with_patches { form_fields := [aliceField], svgTree := some aliceSvg }
          [{ id := some "First_Name", attr := some "id",
             value := .str "First_Name.max_50" }]).1.map (fun f => f.currentValue) =
        [PyVal.str "Alice"]) := by
  refine ⟨by decide, by decide, by decide⟩

/-! ## Merge lemmas for claims C5 and C9 -/

def patchKey (p : Patch) : Option String × Option String := (p.id, p.attr)

def isReorderPatch (p : Patch) : Bool := p.attr == some "reorder"

def validPatch (p : Patch) : Bool := truthyOS p.id && truthyOS p.attr

/-- The dict-building part of the merge fold. -/
def mergedFold (ps : List Patch) (m : List ((Option String × Option String) × Patch)) :
    List ((Option String × Option String) × Patch) :=
  ps.foldl (fun acc p => dictInsert (patchKey p) p acc) m

theorem mergeStep_foldl (P : List Patch) (m : List ((Option String × Option String) × Patch))
    (r : List Patch) :
    P.foldl mergeStep (m, r) =
      (mergedFold (P.filter (fun p => !isReorderPatch p && validPatch p)) m,
        r ++ P.filter isReorderPatch) := by
  induction P generalizing m r with
  | nil => simp [mergedFold]
  | cons p ps ih =>
    rw [List.foldl_cons]
    by_cases hr : isReorderPatch p = true
    · have step : mergeStep (m, r) p = (m, r ++ [p]) := by
        unfold mergeStep
        rw [if_pos (show (p.attr == some "reorder") = true from hr)]
      rw [step, ih]
      simp [List.filter_cons, hr, mergedFold]
    · have hrb : (p.attr == some "reorder") = false := by
        simpa [isReorderPatch] using hr
      by_cases hv : validPatch p = true
      · have step : mergeStep (m, r) p = (dictInsert (patchKey p) p m, r) := by
          unfold mergeStep
          rw [if_neg (by simp [hrb]),
            if_pos (show (truthyOS p.id && truthyOS p.attr) = true from hv)]
          rfl
        rw [step, ih]
        simp [List.filter_cons, hr, hv, mergedFold]
      · have hvb : (truthyOS p.id && truthyOS p.attr) = false := by
          simpa [validPatch] using hv
        have step : mergeStep (m, r) p = (m, r) := by
          unfold mergeStep
          rw [if_neg (by simp [hrb]), if_neg (by simp [hvb])]
        rw [step, ih]
        simp [List.filter_cons, hr, hv]

theorem merge_svg_patches_decomp (P : List Patch) :
    merge_svg_patches P =
      (mergedFold (P.filter (fun p => !isReorderPatch p && validPatch p)) []).map
          (fun kv => kv.2) ++
        P.filter isReorderPatch := by
  unfold merge_svg_patches
  rw [mergeStep_foldl]
  simp

theorem dget_dictInsert [DecidableEq α] (k k2 : α) (v : β) (m : List (α × β)) :
    dget (dictInsert k v m) k2 = if k2 = k then some v else dget m k2 := by
  induction m with
  | nil =>
    by_cases h : k2 = k
    · subst h
      simp [dictInsert, dget]
    · simp [dictInsert, dget, h, Ne.symm h]
  | cons e rest ih =>
    obtain ⟨k0, v0⟩ := e
    by_cases h0 : k0 = k
    · subst h0
      by_cases h : k2 = k0
      · subst h
        simp [dictInsert, dget]
      · simp [dictInsert, dget, h, Ne.symm h]
    · by_cases h : k2 = k0
      · subst h
        simp [dictInsert, dget, h0, Ne.symm h0]
      · simp [dictInsert, dget, h0, h, Ne.symm h, ih]

theorem mem_dictInsert [DecidableEq α] (k : α) (v : β) (m : List (α × β)) (x : α × β)
    (h : x ∈ dictInsert k v m) : x = (k, v) ∨ x ∈ m := by
  induction m with
  | nil =>
    simp [dictInsert] at h
    simp [h]
  | cons e rest ih =>
    obtain ⟨k0, v0⟩ := e
    by_cases h0 : k0 = k
    · subst h0
      simp only [dictInsert, if_pos rfl] at h
      rcases List.mem_cons.mp h with h1 | h1
      · exact Or.inl h1
      · exact Or.inr (List.mem_cons_of_mem _ h1)
    · simp only [dictInsert, if_neg h0] at h
      rcases List.mem_cons.mp h with h1 | h1
      · exact Or.inr (h1 ▸ List.mem_cons_self _ _)
      · rcases ih h1 with h2 | h2
        · exact Or.inl h2
        · exact Or.inr (List.mem_cons_of_mem _ h2)

theorem keys_dictInsert [DecidableEq α] (k : α) (v : β) (m : List (α × β)) :
    (dictInsert k v m).map Prod.fst =
      if k ∈ m.map Prod.fst then m.map Prod.fst else m.map Prod.fst ++ [k] := by
  induction m with
  | nil => simp [dictInsert]
  | cons e rest ih =>
    obtain ⟨k0, v0⟩ := e
    by_cases h0 : k0 = k
    · subst h0
      simp [dictInsert]
    · simp only [dictInsert, if_neg h0, List.map_cons, ih]
      by_cases hk : k ∈ rest.map Prod.fst
      · simp [hk, Ne.symm h0]
      · simp [hk, Ne.symm h0, fun hc => h0 (Eq.symm hc)]

theorem nodup_keys_dictInsert [DecidableEq α] (k : α) (v : β) (m : List (α × β))
    (h : (m.map Prod.fst).Nodup) : ((dictInsert k v m).map Prod.fst).Nodup := by
  rw [keys_dictInsert]
  by_cases hk : k ∈ m.map Prod.fst
  · simpa [hk] using h
  · simp only [hk, if_false]
    exact List.Nodup.append h (List.nodup_singleton k) (by simpa using hk)

theorem mergedFold_good (ps : List Patch) (m : List ((Option String × Option String) × Patch))
    (hm : ∀ e ∈ m, patchKey e.2 = e.1 ∧ isReorderPatch e.2 = false ∧ validPatch e.2 = true)
    (hps : ∀ p ∈ ps, isReorderPatch p = false ∧ validPatch p = true) :
    ∀ e ∈ mergedFold ps m,
      patchKey e.2 = e.1 ∧ isReorderPatch e.2 = false ∧ validPatch e.2 = true := by
  induction ps generalizing m with
  | nil => exact hm
  | cons p ps ih =>
    unfold mergedFold
    rw [List.foldl_cons]
    refine ih (dictInsert (patchKey p) p m) ?_ (fun q hq => hps q (List.mem_cons_of_mem p hq))
    intro e he
    rcases mem_dictInsert _ _ _ _ he with h1 | h1
    · subst h1
      exact ⟨rfl, (hps p (List.mem_cons_self p ps)).1, (hps p (List.mem_cons_self p ps)).2⟩
    · exact hm e h1

theorem mergedFold_nodup (ps : List Patch)
    (m : List ((Option String × Option String) × Patch))
    (hm : (m.map Prod.fst).Nodup) : ((mergedFold ps m).map Prod.fst).Nodup := by
  induction ps generalizing m with
  | nil => exact hm
  | cons p ps ih =>
    unfold mergedFold
    rw [List.foldl_cons]
    exact ih _ (nodup_keys_dictInsert _ _ _ hm)

theorem dget_mergedFold (ps : List Patch) (m : List ((Option String × Option String) × Patch))
    (k : Option String × Option String) :
    dget (mergedFold ps m) k =
      match (ps.filter (fun p => decide (patchKey p = k))).getLast? with
      | some q => some q
      | none => dget m k := by
  induction ps generalizing m with
  | nil => simp [mergedFold]
  | cons p ps ih =>
    unfold mergedFold
    rw [List.foldl_cons]
    have step := ih (dictInsert (patchKey p) p m)
    unfold mergedFold at step
    rw [step, List.filter_cons]
    by_cases kp : patchKey p = k
    · rw [if_pos (by simp [kp])]
      cases hf : (ps.filter (fun p => decide (patchKey p = k))).getLast? with
      | none =>
        have hfe : ps.filter (fun p => decide (patchKey p = k)) = [] := by
          cases hl : ps.filter (fun p => decide (patchKey p = k)) with
          | nil => rfl
          | cons a l => rw [hl] at hf; simp [List.getLast?] at hf
        rw [hfe]
        simp [dget_dictInsert, kp.symm]
      | some q =>
        have hne : ps.filter (fun p => decide (patchKey p = k)) ≠ [] := by
          intro hc
          rw [hc] at hf
          simp at hf
        cases hl : ps.filter (fun p => decide (patchKey p = k)) with
        | nil => exact absurd hl hne
        | cons a l =>
          rw [hl] at hf
          rw [List.getLast?_cons_cons, hf]
    · rw [if_neg (by simp [kp])]
      cases hf : (ps.filter (fun p => decide (patchKey p = k))).getLast? with
      | none =>
        simp only []
        rw [dget_dictInsert]
        rw [if_neg (fun hc => kp hc.symm)]
      | some q => rfl

theorem dget_eq_of_mem [DecidableEq α] (m : List (α × β)) (k : α) (v : β)
    (hnd : (m.map Prod.fst).Nodup) (h : (k, v) ∈ m) : dget m k = some v := by
  induction m with
  | nil => simp at h
  | cons e rest ih =>
    obtain ⟨k0, v0⟩ := e
    rw [List.map_cons, List.nodup_cons] at hnd
    rcases List.mem_cons.mp h with h1 | h1
    · have h1k : k = k0 := congrArg Prod.fst h1
      have h1v : v = v0 := congrArg Prod.snd h1
      subst h1k
      subst h1v
      simp [dget]
    · have hkmem : k ∈ rest.map Prod.fst := List.mem_map_of_mem Prod.fst h1
      have hk0 : k0 ≠ k := fun hc => hnd.1 (hc ▸ hkmem)
      simp only [dget, if_neg hk0]
      exact ih hnd.2 h1

theorem mem_merge_part (P : List Patch) (p : Patch)
    (h : p ∈ (mergedFold (P.filter (fun r => !isReorderPatch r && validPatch r)) []).map
      (fun kv => kv.2)) :
    isReorderPatch p = false ∧ validPatch p = true ∧
      dget (mergedFold (P.filter (fun r => !isReorderPatch r && validPatch r)) [])
        (patchKey p) = some p := by
  obtain ⟨e, he, hev⟩ := List.mem_map.mp h
  have good := mergedFold_good (P.filter (fun r => !isReorderPatch r && validPatch r)) []
    (by simp)
    (fun r hr => by
      have := List.of_mem_filter hr
      simp only [Bool.and_eq_true, Bool.not_eq_true'] at this
      exact this) e he
  have hnd := mergedFold_nodup (P.filter (fun r => !isReorderPatch r && validPatch r)) []
    (by simp)
  subst hev
  refine ⟨good.2.1, good.2.2, ?_⟩
  rw [good.1]
  exact dget_eq_of_mem _ _ _ hnd (by
    have : e = (e.1, e.2) := rfl
    rw [← this]
    exact he)

theorem dget_some_mem [DecidableEq α] (m : List (α × β)) (k : α) (v : β)
    (h : dget m k = some v) : v ∈ m.map Prod.snd := by
  induction m with
  | nil => simp [dget] at h
  | cons e rest ih =>
    obtain ⟨k0, v0⟩ := e
    by_cases hk : k0 = k
    · rw [dget, if_pos hk] at h
      injection h with h
      simp [h]
    · rw [dget, if_neg hk] at h
      simp [ih h]

/-! ## Claim C5 -/

/-- Claim C5: merge is last-write-wins per `(id, attribute)` key for non-reorder
patches, every reorder patch survives, and the surviving reorder patches appear
in submission order after the merged attribute patches. -/
theorem c5_merge_last_write_wins :
    (∀ P : List Patch,
        (merge_svg_patches P).filter isReorderPatch = P.filter isReorderPatch) ∧
      (∀ P : List Patch, ∃ pre,
          merge_svg_patches P = pre ++ P.filter isReorderPatch ∧
            ∀ q ∈ pre, isReorderPatch q = false) ∧
      (∀ (u v w : List Patch) (p q : Patch),
          patchKey p = patchKey q → isReorderPatch q = false → validPatch q = true →
          (∀ r ∈ w, patchKey r ≠ patchKey q) →
          q ∈ merge_svg_patches (u ++ p :: v ++ q :: w) ∧
            (p ≠ q → p ∉ merge_svg_patches (u ++ p :: v ++ q :: w))) := by
  have hpre : ∀ P : List Patch,
      ∀ q ∈ (mergedFold (P.filter (fun r => !isReorderPatch r && validPatch r)) []).map
        (fun kv => kv.2), isReorderPatch q = false := by
    intro P q hq
    exact (mem_merge_part P q hq).1
  refine ⟨?_, ?_, ?_⟩
  · intro P
    rw [merge_svg_patches_decomp, List.filter_append]
    rw [List.filter_eq_nil_iff.mpr (fun q hq => by simp [hpre P q hq]),
      List.filter_eq_self.mpr (fun q hq => List.of_mem_filter hq), List.nil_append]
  · intro P
    exact ⟨_, merge_svg_patches_decomp P, hpre P⟩
  · intro u v w p q hkey hq hqv hw
    have hdget :
        dget (mergedFold ((u ++ p :: v ++ q :: w).filter
            (fun r => !isReorderPatch r && validPatch r)) []) (patchKey q) = some q := by
      rw [dget_mergedFold, List.filter_filter]
      have hwnil : w.filter
          (fun r => decide (patchKey r = patchKey q) && (!isReorderPatch r && validPatch r)) =
            [] :=
        List.filter_eq_nil_iff.mpr (fun r hr => by simp [hw r hr])
      rw [show u ++ p :: v ++ q :: w = (u ++ p :: v) ++ q :: w by simp]
      rw [List.filter_append, List.filter_cons, if_pos (by simp [hq, hqv]), hwnil,
        List.getLast?_concat]
    constructor
    · rw [merge_svg_patches_decomp]
      exact List.mem_append.mpr (Or.inl (dget_some_mem _ _ _ hdget))
    · intro hpq hp
      rw [merge_svg_patches_decomp] at hp
      rcases List.mem_append.mp hp with hp1 | hp1
      · have hm := (mem_merge_part _ p hp1).2.2
        rw [hkey, hdget] at hm
        exact hpq (Option.some.inj hm).symm
      · have : isReorderPatch p = true := List.of_mem_filter hp1
        have hattr : p.attr = q.attr := congrArg Prod.snd hkey
        rw [isReorderPatch, hattr] at this
        rw [isReorderPatch] at hq
        exact absurd this (by simp [hq])

/-- Concrete run of the C5 theorem: of two patches on `(a, fill)` only the later
(blue) one survives. -/
theorem c5_merge_last_write_wins_witness :
    ({ id := some "a", attr := some "fill", value := .str "blue" } : Patch) ∈
        merge_svg_patches
          [{ id := some "a", attr := some "fill", value := .str "red" },
           { id := some "a", attr := some "fill", value := .str "blue" }] ∧
      ({ id := some "a", attr := some "fill", value := .str "red" } : Patch) ∉
        merge_svg_patches
          [{ id := some "a", attr := some "fill", value := .str "red" },
           { id := some "a", attr := some "fill", value := .str "blue" }] := by
  have h := c5_merge_last_write_wins.2.2 [] [] []
    { id := some "a", attr := some "fill", value := .str "red" }
    { id := some "a", attr := some "fill", value := .str "blue" }
    (by decide) (by decide) (by decide) (by simp)
  exact ⟨h.1, h.2 (by decide)⟩

/-! ## Claim C9 -/

/-- Claim C9: a non-reorder patch whose target id or attribute is missing,
`None`, or empty never appears in the merged output at all, while
`apply_svg_patches` merely skips it, leaving the document unchanged. -/
theorem c9_merge_drops_malformed (P : List Patch) (p : Patch) (doc : XElem)
    (_hmem : p ∈ P) (hnr : isReorderPatch p = false) (hmal : validPatch p = false) :
    p ∉ merge_svg_patches P ∧ apply_svg_patches doc [p] = doc := by
  constructor
  · intro hp
    rw [merge_svg_patches_decomp] at hp
    rcases List.mem_append.mp hp with hp1 | hp1
    · have := (mem_merge_part _ p hp1).2.1
      rw [this] at hmal
      exact Bool.true_eq_false ▸ hmal.symm ▸ (by simp at hmal)
    · have := List.of_mem_filter hp1
      rw [hnr] at this
      exact absurd this (by simp)
  · unfold apply_svg_patches
    rw [if_neg (by simp)]
    rw [List.foldl_cons, List.foldl_nil]
    rw [if_pos (by
      simp only [Bool.not_eq_true]
      exact (show (truthyOS p.id && truthyOS p.attr) = false from hmal))]

/-- Concrete run of the C9 theorem: a patch with an empty target id is dropped
by merge and skipped by apply. -/
theorem c9_merge_drops_malformed_witness :
    ({ id := some "", attr := some "fill", value := .str "red" } : Patch) ∉
        merge_svg_patches
          [{ id := some "", attr := some "fill", value := .str "red" },
           { id := some "a", attr := some "fill", value := .str "blue" }] ∧
      apply_svg_patches (.mk [("id", "a")] none none [])
          [{ id := some "", attr := some "fill", value := .str "red" }] =
        .mk [("id", "a")] none none [] :=
  c9_merge_drops_malformed _ _ _ (List.mem_cons_self _ _) (by decide) (by decide)

/-! ## Claim C8 -/

theorem scanCand_none (l : List Char) (h : '[' ∉ l) : scanCand l = none := by
  induction l with
  | nil => rfl
  | cons c rest ih =>
    rw [scanCand, ih (fun hm => h (List.mem_cons_of_mem c hm))]
    have hc : c ≠ '[' := fun hc => h (hc ▸ List.mem_cons_self c rest)
    simp [Option.or, scanCandHere, hc]

theorem scanCand_append (xs tail : List Char) (r : List Char × List Char × List Char)
    (h : scanCand tail = some r) :
    scanCand (xs ++ tail) = some (xs ++ r.1, r.2.1, r.2.2) := by
  induction xs with
  | nil => simpa using h
  | cons c cs ih =>
    rw [List.cons_append, scanCand, ih]
    simp [Option.or]

theorem scanCand_w (p : List Char) (hp : p ≠ []) (h : '[' ∉ p) :
    scanCand ('[' :: 'w' :: p) = some ([], ['w'], p) := by
  rw [scanCand, scanCand_none ('w' :: p) (by
    intro hm
    rcases List.mem_cons.mp hm with h1 | h1
    · exact absurd h1.symm (by decide)
    · exact h h1)]
  simp [Option.or, scanCandHere, hp]

theorem scanCand_ch (p : List Char) (hp : p ≠ []) (h : '[' ∉ p) :
    scanCand ('[' :: 'c' :: 'h' :: p) = some ([], ['c', 'h'], p) := by
  rw [scanCand, scanCand_none ('c' :: 'h' :: p) (by
    intro hm
    rcases List.mem_cons.mp hm with h1 | h1
    · exact absurd h1.symm (by decide)
    · rcases List.mem_cons.mp h1 with h2 | h2
      · exact absurd h2.symm (by decide)
      · exact h h2)]
  simp [Option.or, scanCandHere, hp]

theorem str_data_ne {s : String} (h : s ≠ "") : s.data ≠ [] := by
  intro hd
  exact h (String.ext hd)

theorem reMatchDep_w (name p : String) (hn : name ≠ "") (hp : p ≠ "")
    (hbr1 : '[' ∉ p.data) :
    reMatchDep (name ++ "[w" ++ p ++ "]") = some (name, "w", p) := by
  have hdata : (name ++ "[w" ++ p ++ "]").data =
      (name.data ++ ('[' :: 'w' :: p.data)) ++ [']'] := by
    simp [String.data_append]
  have hend : strEnds (name ++ "[w" ++ p ++ "]") "]" = true := by
    unfold strEnds
    rw [hdata, List.reverse_append]
    simp [prefixOfL]
  unfold reMatchDep
  rw [if_pos hend, hdata, List.dropLast_concat,
    scanCand_append name.data _ _ (scanCand_w p.data (str_data_ne hp) hbr1)]
  simp only [List.append_nil]
  rw [if_pos (by simpa using str_data_ne hn)]

theorem reMatchDep_ch (name p : String) (hn : name ≠ "") (hp : p ≠ "")
    (hbr1 : '[' ∉ p.data) :
    reMatchDep (name ++ "[ch" ++ p ++ "]") = some (name, "ch", p) := by
  have hdata : (name ++ "[ch" ++ p ++ "]").data =
      (name.data ++ ('[' :: 'c' :: 'h' :: p.data)) ++ [']'] := by
    simp [String.data_append]
  have hend : strEnds (name ++ "[ch" ++ p ++ "]") "]" = true := by
    unfold strEnds
    rw [hdata, List.reverse_append]
    simp [prefixOfL]
  unfold reMatchDep
  rw [if_pos hend, hdata, List.dropLast_concat,
    scanCand_append name.data _ _ (scanCand_ch p.data (str_data_ne hp) hbr1)]
  simp only [List.append_nil]
  rw [if_pos (by simpa using str_data_ne hn)]

theorem extract_word_eval (text p : String) (k : Int) (hk : pyInt p = some k) :
    extract_word text p =
      (if 1 ≤ k ∧ k ≤ ((pyWords (pyStrip text)).length : Int) then
        (pyWords (pyStrip text)).getD (k - 1).toNat "" else "") := by
  unfold extract_word
  rw [hk]
  dsimp only
  by_cases h : (0 : Int) ≤ k - 1 ∧ k - 1 < ((pyWords (pyStrip text)).length : Int)
  · rw [if_pos h, if_pos (by omega)]
  · rw [if_neg h, if_neg (by omega)]

theorem contains_false_of_not_mem (l : List Char) (c : Char) (h : c ∉ l) :
    l.contains c = false := by
  simp only [List.contains, List.elem_eq_mem, decide_eq_false_iff_not]
  exact h

theorem extract_chars_single (text p : String) (k : Int) (hk : pyInt p = some k)
    (hc : ',' ∉ p.data) (hd : '-' ∉ p.data) :
    extract_chars text p =
      (if 1 ≤ k ∧ k ≤ (text.data.length : Int) then
        String.mk [text.data.getD (k - 1).toNat ' '] else "") := by
  unfold extract_chars
  rw [if_neg (by simp [contains_false_of_not_mem _ _ hc, hc]),
    if_neg (by simp [contains_false_of_not_mem _ _ hd, hd]), hk]
  dsimp only
  by_cases h : (0 : Int) ≤ k - 1 ∧ k - 1 < (text.data.length : Int)
  · rw [if_pos h, if_pos (by omega)]
    have hlt : (k - 1).toNat < text.data.length := by omega
    rw [List.get?_eq_getElem?, List.getElem?_eq_getElem hlt]
    rw [List.getD_eq_getElem text.data ' ' hlt]
  · rw [if_neg h, if_neg (by omega)]

theorem splitCharL_no_sep (sep : Char) (l : List Char) (h : sep ∉ l) :
    splitCharL sep l = [l] := by
  induction l with
  | nil => rfl
  | cons c rest ih =>
    rw [splitCharL, ih (fun hm => h (List.mem_cons_of_mem c hm))]
    dsimp only
    rw [if_neg (fun (hc : c = sep) => h (hc ▸ List.mem_cons_self c rest))]

theorem splitCharL_sep_append (sep : Char) (xs ys : List Char) (h : sep ∉ xs) :
    splitCharL sep (xs ++ sep :: ys) = xs :: splitCharL sep ys := by
  induction xs with
  | nil =>
    rw [List.nil_append, splitCharL]
    cases hys : splitCharL sep ys with
    | nil => exact absurd hys (splitCharL_ne_nil sep ys)
    | cons g gs =>
      dsimp only
      rw [if_pos rfl]
  | cons c cs ih =>
    rw [List.cons_append, splitCharL, ih (fun hm => h (List.mem_cons_of_mem c hm))]
    dsimp only
    rw [if_neg (fun (hc : c = sep) => h (hc ▸ List.mem_cons_self c cs))]

theorem pyInt_nonneg (p : String) (k : Int) (h : pyInt p = some k)
    (hm : '-' ∉ p.data) : 0 ≤ k := by
  have hsub : ∀ c, c ∈ pyStripL p.data → c ∈ p.data := by
    intro c hc
    unfold pyStripL at hc
    rw [List.mem_reverse] at hc
    have h1 := (List.dropWhile_sublist isPyWs (l := (p.data.dropWhile isPyWs).reverse)).mem hc
    rw [List.mem_reverse] at h1
    exact (List.dropWhile_sublist isPyWs (l := p.data)).mem h1
  unfold pyInt at h
  split at h
  case h_1 rest heq =>
    exact absurd (hsub '-' (by rw [heq]; exact List.mem_cons_self _ _)) hm
  case h_2 rest heq =>
    obtain ⟨n, _, hn⟩ := Option.map_eq_some'.mp h
    have hn2 : (n : Int) = k := by exact_mod_cast hn
    omega
  case h_3 rest heq1 heq2 =>
    obtain ⟨n, _, hn⟩ := Option.map_eq_some'.mp h
    have hn2 : (n : Int) = k := by exact_mod_cast hn
    omega

theorem pySlice_eval (s : String) (a b : Int) (ha : 0 ≤ a) (hb : 0 ≤ b) :
    pySlice s a b = String.mk ((s.data.take b.toNat).drop a.toNat) := by
  unfold pySlice
  dsimp only
  rw [if_neg (by omega), if_neg (by omega)]
  congr 1
  by_cases hble : b ≤ (s.data.length : Int)
  · rw [min_eq_left hble]
    by_cases hale : a ≤ (s.data.length : Int)
    · rw [min_eq_left hale]
    · rw [min_eq_right (le_of_not_le hale)]
      rw [List.drop_eq_nil_of_le (by
          have := List.length_take b.toNat s.data
          omega),
        List.drop_eq_nil_of_le (by
          have := List.length_take b.toNat s.data
          omega)]
  · rw [min_eq_right (le_of_not_le hble)]
    have htake : s.data.take ((s.data.length : Int)).toNat = s.data := by
      rw [Int.toNat_natCast, List.take_length]
    have htake2 : s.data.take b.toNat = s.data :=
      List.take_of_length_le (by omega)
    rw [htake, htake2]
    by_cases hale : a ≤ (s.data.length : Int)
    · rw [min_eq_left hale]
    · rw [min_eq_right (le_of_not_le hale)]
      rw [List.drop_eq_nil_of_le (by omega), List.drop_eq_nil_of_le (by omega)]

theorem extract_chars_range (text pa pb : String) (a b : Int)
    (hka : pyInt pa = some a) (hkb : pyInt pb = some b)
    (hsa : pyStrip pa = pa) (hsb : pyStrip pb = pb)
    (hca : ',' ∉ pa.data) (hcb : ',' ∉ pb.data)
    (hda : '-' ∉ pa.data) (hdb : '-' ∉ pb.data)
    (h1a : 1 ≤ a) :
    extract_chars text (pa ++ "-" ++ pb) =
      String.mk ((text.data.take b.toNat).drop (a - 1).toNat) := by
  have hdata : (pa ++ "-" ++ pb).data = pa.data ++ '-' :: pb.data := by
    simp [String.data_append]
  unfold extract_chars
  rw [if_neg (by
      rw [hdata]
      rw [contains_false_of_not_mem _ _ (by
        intro hm
        rcases List.mem_append.mp hm with h1 | h1
        · exact hca h1
        · rcases List.mem_cons.mp h1 with h2 | h2
          · exact absurd h2 (by decide)
          · exact hcb h2)]
      simp)]
  rw [if_pos (by
      rw [hdata]
      simp [List.contains, List.elem_eq_mem])]
  have hsplit : pySplitChar '-' (pa ++ "-" ++ pb) = [String.mk pa.data, String.mk pb.data] := by
    unfold pySplitChar
    rw [hdata, splitCharL_sep_append '-' pa.data pb.data hda, splitCharL_no_sep '-' pb.data hdb]
    rfl
  rw [hsplit]
  have ha2 : pyInt (pyStrip (String.mk pa.data)) = some a := by
    rw [show String.mk pa.data = pa from rfl, hsa, hka]
  have hb2 : pyInt (pyStrip (String.mk pb.data)) = some b := by
    rw [show String.mk pb.data = pb from rfl, hsb, hkb]
  rw [List.map_cons, List.map_cons, List.map_nil, ha2, hb2]
  exact pySlice_eval text (a - 1) b (by omega) (pyInt_nonneg pb b hkb hdb)

/-- Claim C8: dependency extraction.  `name[w<k>]` selects the k-th
whitespace-delimited word (1-indexed), `name[ch<k>]` selects the k-th character,
`name[ch<a>-<b>]` selects the inclusive 1-indexed range, comma lists pick the
in-range listed characters, and out-of-range single word or character indices
yield the empty string; `Name[ch1-4]` over `HELLO` gives `HELL`.  All stated
for non-image values, which the resolver passes through untouched. -/
theorem c8_dependency_extraction :
    (∀ (name p : String) (k : Int) (vals : List (String × PyVal)),
        name ≠ "" → p ≠ "" → '[' ∉ p.data → pyInt p = some k →
        isImagePayload ((dget vals name).getD (.str "")) = false →
        extract_from_dependency (name ++ "[w" ++ p ++ "]") vals =
          (if 1 ≤ k ∧ k ≤ ((pyWords (pyStrip ((pyOr ((dget vals name).getD (.str ""))
                (.str "")).pyStr))).length : Int) then
            (pyWords (pyStrip ((pyOr ((dget vals name).getD (.str ""))
                (.str "")).pyStr))).getD (k - 1).toNat ""
          else "")) ∧
      (∀ (name p : String) (k : Int) (vals : List (String × PyVal)),
          name ≠ "" → p ≠ "" → '[' ∉ p.data → ',' ∉ p.data → '-' ∉ p.data →
          pyInt p = some k →
          isImagePayload ((dget vals name).getD (.str "")) = false →
          extract_from_dependency (name ++ "[ch" ++ p ++ "]") vals =
            (if 1 ≤ k ∧
                k ≤ (((pyOr ((dget vals name).getD (.str "")) (.str "")).pyStr).data.length
                  : Int) then
              String.mk
                [((pyOr ((dget vals name).getD (.str "")) (.str "")).pyStr).data.getD
                  (k - 1).toNat ' ']
            else "")) ∧
      (∀ (name pa pb : String) (a b : Int) (vals : List (String × PyVal)),
          name ≠ "" → pyInt pa = some a → pyInt pb = some b →
          pyStrip pa = pa → pyStrip pb = pb →
          '[' ∉ pa.data → '[' ∉ pb.data → ',' ∉ pa.data → ',' ∉ pb.data →
          '-' ∉ pa.data → '-' ∉ pb.data → 1 ≤ a →
          isImagePayload ((dget vals name).getD (.str "")) = false →
          extract_from_dependency (name ++ "[ch" ++ (pa ++ "-" ++ pb) ++ "]") vals =
            String.mk
              (((((pyOr ((dget vals name).getD (.str "")) (.str "")).pyStr).data.take
                  b.toNat).drop (a - 1).toNat))) ∧
      (extract_from_dependency "Name[ch1,3,99]" [("Name", .str "HELLO")] = "HL") ∧
      (extract_from_dependency "Name[ch1-4]" [("Name", .str "HELLO")] = "HELL") := by
  refine ⟨?_, ?_, ?_, by decide, by decide⟩
  · intro name p k vals hn hp hbr hk himg
    unfold extract_from_dependency
    rw [reMatchDep_w name p hn hp hbr]
    dsimp only
    rw [if_neg (by simp [himg]), if_pos (by decide)]
    exact extract_word_eval _ p k hk
  · intro name p k vals hn hp hbr hc hd hk himg
    unfold extract_from_dependency
    rw [reMatchDep_ch name p hn hp hbr]
    dsimp only
    rw [if_neg (by simp [himg]), if_neg (by decide)]
    exact extract_chars_single _ p k hk hc hd
  · intro name pa pb a b vals hn hka hkb hsa hsb hbra hbrb hca hcb hda hdb h1a himg
    have hpne : (pa ++ "-" ++ pb) ≠ "" := by
      intro hc0
      have := congrArg String.data hc0
      simp [String.data_append] at this
    have hbr : '[' ∉ (pa ++ "-" ++ pb).data := by
      rw [show (pa ++ "-" ++ pb).data = pa.data ++ '-' :: pb.data by
        simp [String.data_append]]
      intro hm
      rcases List.mem_append.mp hm with h1 | h1
      · exact hbra h1
      · rcases List.mem_cons.mp h1 with h2 | h2
        · exact absurd h2 (by decide)
        · exact hbrb h2
    unfold extract_from_dependency
    rw [reMatchDep_ch name (pa ++ "-" ++ pb) hn hpne hbr]
    dsimp only
    rw [if_neg (by simp [himg]), if_neg (by decide)]
    exact extract_chars_range _ pa pb a b hka hkb hsa hsb hca hcb hda hdb h1a

/-- Concrete run of the C8 theorem: word, single-character and range extraction
on `Ada Lovelace` / `HELLO`, including an out-of-range word index. -/
theorem c8_dependency_extraction_witness :
    extract_from_dependency "Name[w2]" [("Name", .str "Ada Lovelace")] = "Lovelace" ∧
      extract_from_dependency "Name[w9]" [("Name", .str "Ada Lovelace")] = "" ∧
      extract_from_dependency "Name[ch2]" [("Name", .str "HELLO")] = "E" ∧
      extract_from_dependency "Name[ch2-3]" [("Name", .str "HELLO")] = "EL" := by
  refine ⟨?_, ?_, ?_, ?_⟩
  · have h := c8_dependency_extraction.1 "Name" "2" 2 [("Name", .str "Ada Lovelace")]
      (by decide) (by decide) (by decide) (by decide) (by decide)
    rw [show ("Name" ++ "[w" ++ "2" ++ "]" : String) = "Name[w2]" by decide] at h
    rw [h]
    decide
  · have h := c8_dependency_extraction.1 "Name" "9" 9 [("Name", .str "Ada Lovelace")]
      (by decide) (by decide) (by decide) (by decide) (by decide)
    rw [show ("Name" ++ "[w" ++ "9" ++ "]" : String) = "Name[w9]" by decide] at h
    rw [h]
    decide
  · have h := c8_dependency_extraction.2.1 "Name" "2" 2 [("Name", .str "HELLO")]
      (by decide) (by decide) (by decide) (by decide) (by decide) (by decide) (by decide)
    rw [show ("Name" ++ "[ch" ++ "2" ++ "]" : String) = "Name[ch2]" by decide] at h
    rw [h]
    decide
  · have h := c8_dependency_extraction.2.2.1 "Name" "2" "3" 2 3 [("Name", .str "HELLO")]
      (by decide) (by decide) (by decide) (by decide) (by decide) (by decide) (by decide)
      (by decide) (by decide) (by decide) (by decide) (by decide) (by decide)
    rw [show ("Name" ++ "[ch" ++ ("2" ++ "-" ++ "3") ++ "]" : String) = "Name[ch2-3]"
      by decide] at h
    rw [h]
    decide

/-! ## Flat-document lemmas for claims C3 and C4 -/

theorem subPathsL_append (pr : XElem → Bool) (xs ys : List XElem) (i : Nat) :
    subPathsL pr (xs ++ ys) i = subPathsL pr xs i ++ subPathsL pr ys (i + xs.length) := by
  induction xs generalizing i with
  | nil => simp [subPathsL]
  | cons c cs ih =>
    simp [subPathsL, ih, List.append_assoc, Nat.add_assoc, Nat.add_comm 1]

theorem subPathsL_nil_of_none (pr : XElem → Bool) (u : List XElem) (i : Nat)
    (hu : ∀ e ∈ u, pr e = false) (hl : ∀ e ∈ u, e.children.isEmpty = true) :
    subPathsL pr u i = [] := by
  induction u generalizing i with
  | nil => rfl
  | cons c cs ih =>
    have hc : c.children = [] :=
      List.isEmpty_iff.mp (hl c (List.mem_cons_self c cs))
    rw [subPathsL, hu c (List.mem_cons_self c cs)]
    rw [show XElem.subPaths pr c = [] from by
      cases c with
      | mk a t tl ch =>
        simp only [XElem.children] at hc
        rw [hc, XElem.subPaths]
        rfl]
    simp [ih (i + 1) (fun e he => hu e (List.mem_cons_of_mem c he))
      (fun e he => hl e (List.mem_cons_of_mem c he))]

theorem subPathsL_single (pr : XElem → Bool) (u : List XElem) (t : XElem) (v : List XElem)
    (i : Nat)
    (hu : ∀ e ∈ u, pr e = false) (hv : ∀ e ∈ v, pr e = false)
    (hl : ∀ e ∈ u ++ t :: v, e.children.isEmpty = true)
    (ht : pr t = true) :
    subPathsL pr (u ++ t :: v) i = [[i + u.length]] := by
  rw [subPathsL_append]
  rw [subPathsL_nil_of_none pr u i hu
    (fun e he => hl e (List.mem_append_left _ he))]
  rw [show t :: v = [t] ++ v from rfl, subPathsL_append]
  have htleaf : t.children = [] := by
    have := hl t (List.mem_append_right _ (List.mem_cons_self t v))
    exact List.isEmpty_iff.mp this
  rw [subPathsL, subPathsL, ht]
  rw [show XElem.subPaths pr t = [] from by
    cases t with
    | mk a tx tl ch =>
      simp only [XElem.children] at htleaf
      rw [htleaf, XElem.subPaths]
      rfl]
  have hnil := subPathsL_nil_of_none pr v (i + u.length + 1) hv
    (fun e he => hl e (List.mem_append_right _ (List.mem_cons_of_mem t he)))
  simp [hnil]

theorem getAtPath_flat (a : List (String × String)) (tx tl : Option String)
    (u : List XElem) (t : XElem) (v : List XElem) :
    (XElem.mk a tx tl (u ++ t :: v)).getAtPath [u.length] = some t := by
  rw [XElem.getAtPath]
  have : (u ++ t :: v).get? u.length = some t := by
    induction u with
    | nil => rfl
    | cons c cs ih => simpa using ih
  simp only [XElem.children, this]
  rfl

theorem eraseIdx_append_len (u : List α) (t : α) (v : List α) :
    (u ++ t :: v).eraseIdx u.length = u ++ v := by
  induction u with
  | nil => rfl
  | cons c cs ih => simpa using ih

theorem listInsertIdx_zero (x : α) (v : List α) : listInsertIdx x v 0 = x :: v := by
  cases v <;> rfl

theorem listInsertIdx_append_len (x : α) (u : List α) (r : α) (v : List α) :
    listInsertIdx x (u ++ r :: v) (u.length + 1) = u ++ r :: x :: v := by
  induction u with
  | nil =>
    rw [List.nil_append, listInsertIdx]
    rw [show ([] : List α).length = 0 from rfl, listInsertIdx_zero]
    rfl
  | cons c cs ih =>
    rw [List.cons_append, List.length_cons, listInsertIdx]
    simpa using ih

theorem listInsertIdx_append_at (x : α) (u : List α) (r : α) (v : List α) :
    listInsertIdx x (u ++ r :: v) u.length = u ++ x :: r :: v := by
  induction u with
  | nil => rfl
  | cons c cs ih =>
    rw [List.cons_append, List.length_cons, listInsertIdx]
    simpa using ih

theorem firstDescById_flat (a : List (String × String)) (tx tl : Option String)
    (u : List XElem) (t : XElem) (v : List XElem) (xid : String)
    (ht : t.getAttr "id" = some xid)
    (hu : ∀ e ∈ u, e.getAttr "id" ≠ some xid)
    (hv : ∀ e ∈ v, e.getAttr "id" ≠ some xid)
    (hl : ∀ e ∈ u ++ t :: v, e.children.isEmpty = true) :
    firstDescById (.mk a tx tl (u ++ t :: v)) xid = some [u.length] := by
  unfold firstDescById
  rw [show XElem.subPaths (fun e => e.getAttr "id" == some xid)
        (XElem.mk a tx tl (u ++ t :: v)) =
      subPathsL (fun e => e.getAttr "id" == some xid) (u ++ t :: v) 0 from rfl]
  rw [subPathsL_single _ u t v 0
    (fun e he => by simp [hu e he]) (fun e he => by simp [hv e he]) hl (by simp [ht])]
  simp

theorem apply_single_patch_flat (a : List (String × String)) (tx tl : Option String)
    (u : List XElem) (t : XElem) (v : List XElem) (tid attrName : String) (pv : PyVal)
    (h3 : tid ≠ "") (hattr : attrName ≠ "")
    (ht : t.getAttr "id" = some tid)
    (hu : ∀ e ∈ u, e.getAttr "id" ≠ some tid)
    (hv : ∀ e ∈ v, e.getAttr "id" ≠ some tid)
    (hl : ∀ e ∈ u ++ t :: v, e.children.isEmpty = true) :
    apply_svg_patches (XElem.mk a tx tl (u ++ t :: v))
        [{ id := some tid, attr := some attrName, value := pv }] =
      (set_element_attribute (XElem.mk a tx tl (u ++ t :: v)) [u.length] attrName pv).1 := by
  unfold apply_svg_patches
  rw [if_neg (by simp)]
  rw [List.foldl_cons, List.foldl_nil]
  rw [if_neg (by simp [truthyOS, h3, hattr])]
  have htargets : findPatchTargets (XElem.mk a tx tl (u ++ t :: v)) tid = [[u.length]] := by
    unfold findPatchTargets
    rw [show XElem.subPaths (fun e => e.getAttr "id" == some tid)
          (XElem.mk a tx tl (u ++ t :: v)) =
        subPathsL (fun e => e.getAttr "id" == some tid) (u ++ t :: v) 0 from rfl]
    rw [subPathsL_single _ u t v 0
      (fun e he => by simp [hu e he]) (fun e he => by simp [hv e he]) hl (by simp [ht])]
    rw [if_pos (by simp)]
    simp
  rw [show ((some tid).getD "") = tid from rfl, htargets, List.foldl_cons, List.foldl_nil]
  rfl

/-- On a flat document whose only match for `rid` is the leaf `r`, a
reorder reference with only `beforeId` set resolves to `(rid, move_after)`:
the leaf is falsy for lxml, but with no `afterId` the code still returns the
before-reference with the move-after flag. -/
theorem resolveRef_flat_before (a : List (String × String)) (tx tl : Option String)
    (u : List XElem) (r : XElem) (v : List XElem) (rid : String)
    (hrid : rid ≠ "")
    (hr : r.getAttr "id" = some rid)
    (hu : ∀ e ∈ u, e.getAttr "id" ≠ some rid)
    (hv : ∀ e ∈ v, e.getAttr "id" ≠ some rid)
    (hl : ∀ e ∈ u ++ r :: v, e.children.isEmpty = true) :
    resolveReorderRef (XElem.mk a tx tl (u ++ r :: v)) none (some rid) =
      some (rid, true) := by
  have h1 : firstDescById (XElem.mk a tx tl (u ++ r :: v)) rid = some [u.length] :=
    firstDescById_flat a tx tl u r v rid hr hu hv hl
  have h2 : (XElem.mk a tx tl (u ++ r :: v)).getAtPath [u.length] = some r :=
    getAtPath_flat a tx tl u r v
  have hre : r.pyTruthy = false := by
    have h := hl r (by simp)
    simp [XElem.pyTruthy, h]
  simp [resolveReorderRef, h1, h2, hre, truthyOS, hrid]

/-- On a flat document whose only match for `rid` is the leaf `r`, a
reorder reference with only `afterId` set resolves to `(rid, move_before)`. -/
theorem resolveRef_flat_after (a : List (String × String)) (tx tl : Option String)
    (u : List XElem) (r : XElem) (v : List XElem) (rid : String)
    (hrid : rid ≠ "")
    (hr : r.getAttr "id" = some rid)
    (hu : ∀ e ∈ u, e.getAttr "id" ≠ some rid)
    (hv : ∀ e ∈ v, e.getAttr "id" ≠ some rid)
    (hl : ∀ e ∈ u ++ r :: v, e.children.isEmpty = true) :
    resolveReorderRef (XElem.mk a tx tl (u ++ r :: v)) (some rid) none =
      some (rid, false) := by
  have h1 : firstDescById (XElem.mk a tx tl (u ++ r :: v)) rid = some [u.length] :=
    firstDescById_flat a tx tl u r v rid hr hu hv hl
  simp [resolveReorderRef, h1, truthyOS, hrid]

/-- Reorder with `beforeId` on a flat document, target before the reference:
the target is re-inserted as the immediate successor of the reference. -/
theorem set_reorder_before_tfirst (a : List (String × String)) (tx tl : Option String)
    (as bs cs2 : List XElem) (t r : XElem) (rid : String)
    (hrid : rid ≠ "")
    (hr : r.getAttr "id" = some rid)
    (hras : ∀ e ∈ as, e.getAttr "id" ≠ some rid)
    (hrbs : ∀ e ∈ bs, e.getAttr "id" ≠ some rid)
    (hrcs : ∀ e ∈ cs2, e.getAttr "id" ≠ some rid)
    (hrt : t.getAttr "id" ≠ some rid)
    (hl : ∀ e ∈ as ++ t :: (bs ++ r :: cs2), e.children.isEmpty = true) :
    set_element_attribute (XElem.mk a tx tl (as ++ t :: (bs ++ r :: cs2)))
        [as.length] "reorder" (PyVal.vdict none (some rid)) =
      (XElem.mk a tx tl ((as ++ bs) ++ r :: t :: cs2), true) := by
  have hget : (XElem.mk a tx tl (as ++ t :: (bs ++ r :: cs2))).getAtPath [as.length]
      = some t := getAtPath_flat a tx tl as t (bs ++ r :: cs2)
  have e1 : as ++ t :: (bs ++ r :: cs2) = (as ++ t :: bs) ++ r :: cs2 := by simp
  have hres : resolveReorderRef (XElem.mk a tx tl (as ++ t :: (bs ++ r :: cs2)))
      none (some rid) = some (rid, true) := by
    rw [e1]
    refine resolveRef_flat_before a tx tl (as ++ t :: bs) r cs2 rid hrid hr ?_ hrcs ?_
    · intro x hx
      rcases List.mem_append.1 hx with h | h
      · exact hras x h
      · rcases List.mem_cons.1 h with h | h
        · subst h; exact hrt
        · exact hrbs x h
    · intro x hx
      apply hl
      rw [e1]
      exact hx
  have ht1 : (XElem.mk a tx tl (as ++ t :: (bs ++ r :: cs2))).removeAtPath [as.length]
      = XElem.mk a tx tl (as ++ (bs ++ r :: cs2)) := by
    simp [XElem.removeAtPath, XElem.modifyAtPath, XElem.setChildren, XElem.children,
      eraseIdx_append_len]
  have e2 : as ++ (bs ++ r :: cs2) = (as ++ bs) ++ r :: cs2 := by simp
  have hfind : firstDescById (XElem.mk a tx tl (as ++ (bs ++ r :: cs2))) rid
      = some [(as ++ bs).length] := by
    rw [e2]
    refine firstDescById_flat a tx tl (as ++ bs) r cs2 rid hr ?_ hrcs ?_
    · intro x hx
      rcases List.mem_append.1 hx with h | h
      · exact hras x h
      · exact hrbs x h
    · intro x hx
      apply hl
      simp only [List.mem_append, List.mem_cons] at hx ⊢
      tauto
  have hins : listInsertIdx t (as ++ (bs ++ r :: cs2)) (as.length + bs.length + 1)
      = as ++ (bs ++ r :: t :: cs2) := by
    rw [e2, show as.length + bs.length = (as ++ bs).length by simp, listInsertIdx_append_len]
    simp
  simp [set_element_attribute, hget, hres, ht1, hfind, hins,
    XElem.modifyAtPath, XElem.setChildren, XElem.children]

/-- Reorder with `beforeId` on a flat document, reference before the target:
the target is re-inserted as the immediate successor of the reference. -/
theorem set_reorder_before_rfirst (a : List (String × String)) (tx tl : Option String)
    (as bs cs2 : List XElem) (t r : XElem) (rid : String)
    (hrid : rid ≠ "")
    (hr : r.getAttr "id" = some rid)
    (hras : ∀ e ∈ as, e.getAttr "id" ≠ some rid)
    (hrbs : ∀ e ∈ bs, e.getAttr "id" ≠ some rid)
    (hrcs : ∀ e ∈ cs2, e.getAttr "id" ≠ some rid)
    (hrt : t.getAttr "id" ≠ some rid)
    (hl : ∀ e ∈ (as ++ r :: bs) ++ t :: cs2, e.children.isEmpty = true) :
    set_element_attribute (XElem.mk a tx tl ((as ++ r :: bs) ++ t :: cs2))
        [(as ++ r :: bs).length] "reorder" (PyVal.vdict none (some rid)) =
      (XElem.mk a tx tl (as ++ r :: t :: (bs ++ cs2)), true) := by
  have e0 : (as ++ r :: bs) ++ t :: cs2 = as ++ r :: (bs ++ t :: cs2) := by simp
  have el0 : (as ++ r :: bs).length = as.length + (bs.length + 1) := by simp
  rw [e0, el0]
  have hget : (XElem.mk a tx tl (as ++ r :: (bs ++ t :: cs2))).getAtPath
      [as.length + (bs.length + 1)] = some t := by
    rw [← el0, ← e0]
    exact getAtPath_flat a tx tl (as ++ r :: bs) t cs2
  have hres : resolveReorderRef (XElem.mk a tx tl (as ++ r :: (bs ++ t :: cs2)))
      none (some rid) = some (rid, true) := by
    refine resolveRef_flat_before a tx tl as r (bs ++ t :: cs2) rid hrid hr hras ?_ ?_
    · intro x hx
      rcases List.mem_append.1 hx with h | h
      · exact hrbs x h
      · rcases List.mem_cons.1 h with h | h
        · subst h; exact hrt
        · exact hrcs x h
    · intro x hx
      apply hl
      rw [e0]
      exact hx
  have hER : (as ++ r :: (bs ++ t :: cs2)).eraseIdx (as.length + (bs.length + 1))
      = as ++ r :: (bs ++ cs2) := by
    rw [← e0, ← el0, eraseIdx_append_len]
    simp
  have ht1 : (XElem.mk a tx tl (as ++ r :: (bs ++ t :: cs2))).removeAtPath
      [as.length + (bs.length + 1)] = XElem.mk a tx tl (as ++ r :: (bs ++ cs2)) := by
    simp [XElem.removeAtPath, XElem.modifyAtPath, XElem.setChildren, XElem.children, hER]
  have hfind : firstDescById (XElem.mk a tx tl (as ++ r :: (bs ++ cs2))) rid
      = some [as.length] := by
    refine firstDescById_flat a tx tl as r (bs ++ cs2) rid hr hras ?_ ?_
    · intro x hx
      rcases List.mem_append.1 hx with h | h
      · exact hrbs x h
      · exact hrcs x h
    · intro x hx
      apply hl
      simp only [List.mem_append, List.mem_cons] at hx ⊢
      tauto
  have hins : listInsertIdx t (as ++ r :: (bs ++ cs2)) (as.length + 1)
      = as ++ r :: t :: (bs ++ cs2) := listInsertIdx_append_len t as r (bs ++ cs2)
  simp [set_element_attribute, hget, hres, ht1, hfind, hins,
    XElem.modifyAtPath, XElem.setChildren, XElem.children]

/-- Reorder with `afterId` on a flat document, target before the reference:
the target is re-inserted as the immediate predecessor of the reference. -/
theorem set_reorder_after_tfirst (a : List (String × String)) (tx tl : Option String)
    (as bs cs2 : List XElem) (t r : XElem) (rid : String)
    (hrid : rid ≠ "")
    (hr : r.getAttr "id" = some rid)
    (hras : ∀ e ∈ as, e.getAttr "id" ≠ some rid)
    (hrbs : ∀ e ∈ bs, e.getAttr "id" ≠ some rid)
    (hrcs : ∀ e ∈ cs2, e.getAttr "id" ≠ some rid)
    (hrt : t.getAttr "id" ≠ some rid)
    (hl : ∀ e ∈ as ++ t :: (bs ++ r :: cs2), e.children.isEmpty = true) :
    set_element_attribute (XElem.mk a tx tl (as ++ t :: (bs ++ r :: cs2)))
        [as.length] "reorder" (PyVal.vdict (some rid) none) =
      (XElem.mk a tx tl ((as ++ bs) ++ t :: r :: cs2), true) := by
  have hget : (XElem.mk a tx tl (as ++ t :: (bs ++ r :: cs2))).getAtPath [as.length]
      = some t := getAtPath_flat a tx tl as t (bs ++ r :: cs2)
  have e1 : as ++ t :: (bs ++ r :: cs2) = (as ++ t :: bs) ++ r :: cs2 := by simp
  have hres : resolveReorderRef (XElem.mk a tx tl (as ++ t :: (bs ++ r :: cs2)))
      (some rid) none = some (rid, false) := by
    rw [e1]
    refine resolveRef_flat_after a tx tl (as ++ t :: bs) r cs2 rid hrid hr ?_ hrcs ?_
    · intro x hx
      rcases List.mem_append.1 hx with h | h
      · exact hras x h
      · rcases List.mem_cons.1 h with h | h
        · subst h; exact hrt
        · exact hrbs x h
    · intro x hx
      apply hl
      rw [e1]
      exact hx
  have ht1 : (XElem.mk a tx tl (as ++ t :: (bs ++ r :: cs2))).removeAtPath [as.length]
      = XElem.mk a tx tl (as ++ (bs ++ r :: cs2)) := by
    simp [XElem.removeAtPath, XElem.modifyAtPath, XElem.setChildren, XElem.children,
      eraseIdx_append_len]
  have e2 : as ++ (bs ++ r :: cs2) = (as ++ bs) ++ r :: cs2 := by simp
  have hfind : firstDescById (XElem.mk a tx tl (as ++ (bs ++ r :: cs2))) rid
      = some [(as ++ bs).length] := by
    rw [e2]
    refine firstDescById_flat a tx tl (as ++ bs) r cs2 rid hr ?_ hrcs ?_
    · intro x hx
      rcases List.mem_append.1 hx with h | h
      · exact hras x h
      · exact hrbs x h
    · intro x hx
      apply hl
      simp only [List.mem_append, List.mem_cons] at hx ⊢
      tauto
  have hins : listInsertIdx t (as ++ (bs ++ r :: cs2)) (as.length + bs.length)
      = as ++ (bs ++ t :: r :: cs2) := by
    rw [e2, show as.length + bs.length = (as ++ bs).length by simp, listInsertIdx_append_at]
    simp
  simp [set_element_attribute, hget, hres, ht1, hfind, hins,
    XElem.modifyAtPath, XElem.setChildren, XElem.children]

/-- Reorder with `afterId` on a flat document, reference before the target:
the target is re-inserted as the immediate predecessor of the reference. -/
theorem set_reorder_after_rfirst (a : List (String × String)) (tx tl : Option String)
    (as bs cs2 : List XElem) (t r : XElem) (rid : String)
    (hrid : rid ≠ "")
    (hr : r.getAttr "id" = some rid)
    (hras : ∀ e ∈ as, e.getAttr "id" ≠ some rid)
    (hrbs : ∀ e ∈ bs, e.getAttr "id" ≠ some rid)
    (hrcs : ∀ e ∈ cs2, e.getAttr "id" ≠ some rid)
    (hrt : t.getAttr "id" ≠ some rid)
    (hl : ∀ e ∈ (as ++ r :: bs) ++ t :: cs2, e.children.isEmpty = true) :
    set_element_attribute (XElem.mk a tx tl ((as ++ r :: bs) ++ t :: cs2))
        [(as ++ r :: bs).length] "reorder" (PyVal.vdict (some rid) none) =
      (XElem.mk a tx tl (as ++ t :: r :: (bs ++ cs2)), true) := by
  have e0 : (as ++ r :: bs) ++ t :: cs2 = as ++ r :: (bs ++ t :: cs2) := by simp
  have el0 : (as ++ r :: bs).length = as.length + (bs.length + 1) := by simp
  rw [e0, el0]
  have hget : (XElem.mk a tx tl (as ++ r :: (bs ++ t :: cs2))).getAtPath
      [as.length + (bs.length + 1)] = some t := by
    rw [← el0, ← e0]
    exact getAtPath_flat a tx tl (as ++ r :: bs) t cs2
  have hres : resolveReorderRef (XElem.mk a tx tl (as ++ r :: (bs ++ t :: cs2)))
      (some rid) none = some (rid, false) := by
    refine resolveRef_flat_after a tx tl as r (bs ++ t :: cs2) rid hrid hr hras ?_ ?_
    · intro x hx
      rcases List.mem_append.1 hx with h | h
      · exact hrbs x h
      · rcases List.mem_cons.1 h with h | h
        · subst h; exact hrt
        · exact hrcs x h
    · intro x hx
      apply hl
      rw [e0]
      exact hx
  have hER : (as ++ r :: (bs ++ t :: cs2)).eraseIdx (as.length + (bs.length + 1))
      = as ++ r :: (bs ++ cs2) := by
    rw [← e0, ← el0, eraseIdx_append_len]
    simp
  have ht1 : (XElem.mk a tx tl (as ++ r :: (bs ++ t :: cs2))).removeAtPath
      [as.length + (bs.length + 1)] = XElem.mk a tx tl (as ++ r :: (bs ++ cs2)) := by
    simp [XElem.removeAtPath, XElem.modifyAtPath, XElem.setChildren, XElem.children, hER]
  have hfind : firstDescById (XElem.mk a tx tl (as ++ r :: (bs ++ cs2))) rid
      = some [as.length] := by
    refine firstDescById_flat a tx tl as r (bs ++ cs2) rid hr hras ?_ ?_
    · intro x hx
      rcases List.mem_append.1 hx with h | h
      · exact hrbs x h
      · exact hrcs x h
    · intro x hx
      apply hl
      simp only [List.mem_append, List.mem_cons] at hx ⊢
      tauto
  have hins : listInsertIdx t (as ++ r :: (bs ++ cs2)) as.length
      = as ++ t :: r :: (bs ++ cs2) := listInsertIdx_append_at t as r (bs ++ cs2)
  simp [set_element_attribute, hget, hres, ht1, hfind, hins,
    XElem.modifyAtPath, XElem.setChildren, XElem.children]

/-- When neither reorder reference resolves to any element, resolution fails. -/
theorem resolveRef_none_of_unfound (svg_tree : XElem) (aid bid : Option String)
    (ha : ∀ s, aid = some s → firstDescById svg_tree s = none)
    (hb : ∀ s, bid = some s → firstDescById svg_tree s = none) :
    resolveReorderRef svg_tree aid bid = none := by
  cases aid with
  | none =>
    cases bid with
    | none => simp [resolveReorderRef, truthyOS]
    | some s =>
      by_cases hs : s = ""
      · simp [resolveReorderRef, truthyOS, hs]
      · simp [resolveReorderRef, truthyOS, hs, hb s rfl]
  | some sa =>
    cases bid with
    | none =>
      by_cases hsa : sa = ""
      · simp [resolveReorderRef, truthyOS, hsa]
      · simp [resolveReorderRef, truthyOS, hsa, ha sa rfl]
    | some s =>
      by_cases hs : s = ""
      · by_cases hsa : sa = ""
        · simp [resolveReorderRef, truthyOS, hs, hsa]
        · simp [resolveReorderRef, truthyOS, hs, hsa, ha sa rfl]
      · by_cases hsa : sa = ""
        · simp [resolveReorderRef, truthyOS, hs, hsa, hb s rfl]
        · simp [resolveReorderRef, truthyOS, hs, hsa, ha sa rfl, hb s rfl]

/-- A reorder patch whose resolution fails leaves the tree untouched. -/
theorem set_reorder_unresolved (svg_tree : XElem) (i : Nat) (p : List Nat)
    (aid bid : Option String)
    (hres : resolveReorderRef svg_tree aid bid = none) :
    set_element_attribute svg_tree (i :: p) "reorder" (PyVal.vdict aid bid) =
      (svg_tree, false) := by
  unfold set_element_attribute
  cases hget : svg_tree.getAtPath (i :: p) with
  | none => rfl
  | some el => simp [hres]

/-- On a flat document, an id carried by no child is found nowhere. -/
theorem firstDescById_flat_none (a : List (String × String)) (tx tl : Option String)
    (cs : List XElem) (s : String)
    (hid : ∀ e ∈ cs, e.getAttr "id" ≠ some s)
    (hl : ∀ e ∈ cs, e.children.isEmpty = true) :
    firstDescById (XElem.mk a tx tl cs) s = none := by
  unfold firstDescById
  rw [show XElem.subPaths (fun e => e.getAttr "id" == some s) (XElem.mk a tx tl cs) =
      subPathsL (fun e => e.getAttr "id" == some s) cs 0 from rfl]
  rw [subPathsL_nil_of_none _ cs 0 (fun e he => by simp [hid e he]) hl]
  rfl

/-- C3: counterexample.  In the document A, B, C, a reorder patch moving C with
before_id = A does not make C the immediate predecessor of A as the claim
states; the code inserts the moved element after the reference, producing
A, C, B. -/
theorem c3_counterexample :
    ((apply_svg_patches
        (XElem.mk [] none none
          [XElem.mk [("id", "A")] none none [],
           XElem.mk [("id", "B")] none none [],
           XElem.mk [("id", "C")] none none []])
        [{ id := some "C", attr := some "reorder",
           value := PyVal.vdict none (some "A") }]).children.map
      (fun e => e.getAttr "id") = [some "A", some "C", some "B"]) ∧
    ¬ ((apply_svg_patches
        (XElem.mk [] none none
          [XElem.mk [("id", "A")] none none [],
           XElem.mk [("id", "B")] none none [],
           XElem.mk [("id", "C")] none none []])
        [{ id := some "C", attr := some "reorder",
           value := PyVal.vdict none (some "A") }]).children.map
      (fun e => e.getAttr "id") = [some "C", some "A", some "B"]) := by
  constructor
  · decide
  · decide

/-- C3 (amended): on a flat document with unique ids, a reorder patch with a
resolvable before_id relocates the target to be the immediate SUCCESSOR of the
before_id element (conjuncts one and two, target initially before or after the
reference), a reorder patch with a resolvable after_id relocates the target to
be the immediate PREDECESSOR of the after_id element (conjuncts three and
four) — the directions are exactly swapped relative to the claim — and a
reorder patch none of whose references resolves to an element leaves the
document unchanged (conjunct five). -/
theorem c3_reorder_amended :
    (∀ (a : List (String × String)) (tx tl : Option String) (as bs cs2 : List XElem)
        (t r : XElem) (tid rid : String),
      tid ≠ "" → rid ≠ "" → tid ≠ rid →
      t.getAttr "id" = some tid → r.getAttr "id" = some rid →
      (∀ e ∈ as ++ bs ++ cs2, e.getAttr "id" ≠ some tid ∧ e.getAttr "id" ≠ some rid) →
      (∀ e ∈ as ++ t :: (bs ++ r :: cs2), e.children.isEmpty = true) →
      apply_svg_patches (XElem.mk a tx tl (as ++ t :: (bs ++ r :: cs2)))
          [{ id := some tid, attr := some "reorder",
             value := PyVal.vdict none (some rid) }] =
        XElem.mk a tx tl ((as ++ bs) ++ r :: t :: cs2)) ∧
    (∀ (a : List (String × String)) (tx tl : Option String) (as bs cs2 : List XElem)
        (t r : XElem) (tid rid : String),
      tid ≠ "" → rid ≠ "" → tid ≠ rid →
      t.getAttr "id" = some tid → r.getAttr "id" = some rid →
      (∀ e ∈ as ++ bs ++ cs2, e.getAttr "id" ≠ some tid ∧ e.getAttr "id" ≠ some rid) →
      (∀ e ∈ (as ++ r :: bs) ++ t :: cs2, e.children.isEmpty = true) →
      apply_svg_patches (XElem.mk a tx tl ((as ++ r :: bs) ++ t :: cs2))
          [{ id := some tid, attr := some "reorder",
             value := PyVal.vdict none (some rid) }] =
        XElem.mk a tx tl (as ++ r :: t :: (bs ++ cs2))) ∧
    (∀ (a : List (String × String)) (tx tl : Option String) (as bs cs2 : List XElem)
        (t r : XElem) (tid rid : String),
      tid ≠ "" → rid ≠ "" → tid ≠ rid →
      t.getAttr "id" = some tid → r.getAttr "id" = some rid →
      (∀ e ∈ as ++ bs ++ cs2, e.getAttr "id" ≠ some tid ∧ e.getAttr "id" ≠ some rid) →
      (∀ e ∈ as ++ t :: (bs ++ r :: cs2), e.children.isEmpty = true) →
      apply_svg_patches (XElem.mk a tx tl (as ++ t :: (bs ++ r :: cs2)))
          [{ id := some tid, attr := some "reorder",
             value := PyVal.vdict (some rid) none }] =
        XElem.mk a tx tl ((as ++ bs) ++ t :: r :: cs2)) ∧
    (∀ (a : List (String × String)) (tx tl : Option String) (as bs cs2 : List XElem)
        (t r : XElem) (tid rid : String),
      tid ≠ "" → rid ≠ "" → tid ≠ rid →
      t.getAttr "id" = some tid → r.getAttr "id" = some rid →
      (∀ e ∈ as ++ bs ++ cs2, e.getAttr "id" ≠ some tid ∧ e.getAttr "id" ≠ some rid) →
      (∀ e ∈ (as ++ r :: bs) ++ t :: cs2, e.children.isEmpty = true) →
      apply_svg_patches (XElem.mk a tx tl ((as ++ r :: bs) ++ t :: cs2))
          [{ id := some tid, attr := some "reorder",
             value := PyVal.vdict (some rid) none }] =
        XElem.mk a tx tl (as ++ t :: r :: (bs ++ cs2))) ∧
    (∀ (a : List (String × String)) (tx tl : Option String) (u : List XElem) (t : XElem)
        (v : List XElem) (tid : String) (aid bid : Option String),
      tid ≠ "" →
      t.getAttr "id" = some tid →
      (∀ e ∈ u, e.getAttr "id" ≠ some tid) →
      (∀ e ∈ v, e.getAttr "id" ≠ some tid) →
      (∀ e ∈ u ++ t :: v, e.children.isEmpty = true) →
      (∀ s, aid = some s → ∀ e ∈ u ++ t :: v, e.getAttr "id" ≠ some s) →
      (∀ s, bid = some s → ∀ e ∈ u ++ t :: v, e.getAttr "id" ≠ some s) →
      apply_svg_patches (XElem.mk a tx tl (u ++ t :: v))
          [{ id := some tid, attr := some "reorder", value := PyVal.vdict aid bid }] =
        XElem.mk a tx tl (u ++ t :: v)) := by
  refine ⟨?_, ?_, ?_, ?_, ?_⟩
  · intro a tx tl as bs cs2 t r tid rid htid hrid hne ht hr hoth hl
    have hu : ∀ e ∈ as, e.getAttr "id" ≠ some tid := fun e he => (hoth e (by simp [he])).1
    have hv : ∀ e ∈ bs ++ r :: cs2, e.getAttr "id" ≠ some tid := by
      intro e he
      rcases List.mem_append.1 he with h | h
      · exact (hoth e (by simp [h])).1
      · rcases List.mem_cons.1 h with h | h
        · subst h
          rw [hr]
          exact fun hc => hne (by injection hc with h2; exact h2.symm)
        · exact (hoth e (by simp [h])).1
    rw [apply_single_patch_flat a tx tl as t (bs ++ r :: cs2) tid "reorder"
      (PyVal.vdict none (some rid)) htid (by decide) ht hu hv hl]
    rw [set_reorder_before_tfirst a tx tl as bs cs2 t r rid hrid hr
      (fun e he => (hoth e (by simp [he])).2) (fun e he => (hoth e (by simp [he])).2)
      (fun e he => (hoth e (by simp [he])).2)
      (by rw [ht]; exact fun hc => hne (Option.some.inj hc)) hl]
  · intro a tx tl as bs cs2 t r tid rid htid hrid hne ht hr hoth hl
    have hu : ∀ e ∈ as ++ r :: bs, e.getAttr "id" ≠ some tid := by
      intro e he
      rcases List.mem_append.1 he with h | h
      · exact (hoth e (by simp [h])).1
      · rcases List.mem_cons.1 h with h | h
        · subst h
          rw [hr]
          exact fun hc => hne (by injection hc with h2; exact h2.symm)
        · exact (hoth e (by simp [h])).1
    have hv : ∀ e ∈ cs2, e.getAttr "id" ≠ some tid := fun e he => (hoth e (by simp [he])).1
    rw [apply_single_patch_flat a tx tl (as ++ r :: bs) t cs2 tid "reorder"
      (PyVal.vdict none (some rid)) htid (by decide) ht hu hv hl]
    rw [set_reorder_before_rfirst a tx tl as bs cs2 t r rid hrid hr
      (fun e he => (hoth e (by simp [he])).2) (fun e he => (hoth e (by simp [he])).2)
      (fun e he => (hoth e (by simp [he])).2)
      (by rw [ht]; exact fun hc => hne (Option.some.inj hc)) hl]
  · intro a tx tl as bs cs2 t r tid rid htid hrid hne ht hr hoth hl
    have hu : ∀ e ∈ as, e.getAttr "id" ≠ some tid := fun e he => (hoth e (by simp [he])).1
    have hv : ∀ e ∈ bs ++ r :: cs2, e.getAttr "id" ≠ some tid := by
      intro e he
      rcases List.mem_append.1 he with h | h
      · exact (hoth e (by simp [h])).1
      · rcases List.mem_cons.1 h with h | h
        · subst h
          rw [hr]
          exact fun hc => hne (by injection hc with h2; exact h2.symm)
        · exact (hoth e (by simp [h])).1
    rw [apply_single_patch_flat a tx tl as t (bs ++ r :: cs2) tid "reorder"
      (PyVal.vdict (some rid) none) htid (by decide) ht hu hv hl]
    rw [set_reorder_after_tfirst a tx tl as bs cs2 t r rid hrid hr
      (fun e he => (hoth e (by simp [he])).2) (fun e he => (hoth e (by simp [he])).2)
      (fun e he => (hoth e (by simp [he])).2)
      (by rw [ht]; exact fun hc => hne (Option.some.inj hc)) hl]
  · intro a tx tl as bs cs2 t r tid rid htid hrid hne ht hr hoth hl
    have hu : ∀ e ∈ as ++ r :: bs, e.getAttr "id" ≠ some tid := by
      intro e he
      rcases List.mem_append.1 he with h | h
      · exact (hoth e (by simp [h])).1
      · rcases List.mem_cons.1 h with h | h
        · subst h
          rw [hr]
          exact fun hc => hne (by injection hc with h2; exact h2.symm)
        · exact (hoth e (by simp [h])).1
    have hv : ∀ e ∈ cs2, e.getAttr "id" ≠ some tid := fun e he => (hoth e (by simp [he])).1
    rw [apply_single_patch_flat a tx tl (as ++ r :: bs) t cs2 tid "reorder"
      (PyVal.vdict (some rid) none) htid (by decide) ht hu hv hl]
    rw [set_reorder_after_rfirst a tx tl as bs cs2 t r rid hrid hr
      (fun e he => (hoth e (by simp [he])).2) (fun e he => (hoth e (by simp [he])).2)
      (fun e he => (hoth e (by simp [he])).2)
      (by rw [ht]; exact fun hc => hne (Option.some.inj hc)) hl]
  · intro a tx tl u t v tid aid bid htid ht hu hv hl ha hb
    rw [apply_single_patch_flat a tx tl u t v tid "reorder"
      (PyVal.vdict aid bid) htid (by decide) ht hu hv hl]
    rw [set_reorder_unresolved (XElem.mk a tx tl (u ++ t :: v)) u.length [] aid bid
      (resolveRef_none_of_unfound _ aid bid
        (fun s hs => firstDescById_flat_none a tx tl (u ++ t :: v) s (ha s hs) hl)
        (fun s hs => firstDescById_flat_none a tx tl (u ++ t :: v) s (hb s hs) hl))]

/-- C3 (amended) witness: the first conjunct at the concrete document T, B, R
with a before_id = R reorder of T, giving B, R, T. -/
theorem c3_reorder_amended_witness :
    apply_svg_patches
        (XElem.mk [] none none
          [XElem.mk [("id", "T")] none none [],
           XElem.mk [("id", "B")] none none [],
           XElem.mk [("id", "R")] none none []])
        [{ id := some "T", attr := some "reorder",
           value := PyVal.vdict none (some "R") }] =
      XElem.mk [] none none
        [XElem.mk [("id", "B")] none none [],
         XElem.mk [("id", "R")] none none [],
         XElem.mk [("id", "T")] none none []] :=
  c3_reorder_amended.1 [] none none [] [XElem.mk [("id", "B")] none none []] []
    (XElem.mk [("id", "T")] none none []) (XElem.mk [("id", "R")] none none [])
    "T" "R" (by decide) (by decide) (by decide) (by decide) (by decide)
    (by decide) (by decide)

theorem dget_filter_same [DecidableEq α] (a : List (α × β)) (k : α) :
    dget (a.filter (fun kv => kv.1 ≠ k)) k = none := by
  induction a with
  | nil => rfl
  | cons kv rest ih =>
    obtain ⟨k0, v0⟩ := kv
    by_cases h : k0 = k
    · rw [List.filter_cons_of_neg (by simp [h])]
      exact ih
    · rw [List.filter_cons_of_pos (by simp [h]), dget, if_neg h]
      exact ih

theorem dget_filter_other [DecidableEq α] (a : List (α × β)) (k k2 : α) (h : k2 ≠ k) :
    dget (a.filter (fun kv => kv.1 ≠ k)) k2 = dget a k2 := by
  induction a with
  | nil => rfl
  | cons kv rest ih =>
    obtain ⟨k0, v0⟩ := kv
    by_cases hk : k0 = k
    · rw [List.filter_cons_of_neg (by simp [hk]), ih, dget,
        if_neg (fun hc => h (hc.symm.trans hk))]
    · rw [List.filter_cons_of_pos (by simp [hk]), dget, dget]
      by_cases h2 : k0 = k2
      · rw [if_pos h2, if_pos h2]
      · rw [if_neg h2, if_neg h2]
        exact ih

theorem getAttr_setAttr_same (e : XElem) (k v : String) :
    (e.setAttr k v).getAttr k = some v := by
  cases e with
  | mk a t tl cs =>
    show dget (dictInsert k v a) k = some v
    rw [dget_dictInsert, if_pos rfl]

theorem getAttr_setAttr_ne (e : XElem) (k k2 v : String) (h : k2 ≠ k) :
    (e.setAttr k v).getAttr k2 = e.getAttr k2 := by
  cases e with
  | mk a t tl cs =>
    show dget (dictInsert k v a) k2 = dget a k2
    rw [dget_dictInsert, if_neg h]

theorem getAttr_popAttr_same (e : XElem) (k : String) :
    (e.popAttr k).getAttr k = none := by
  cases e with
  | mk a t tl cs =>
    show dget (a.filter (fun kv => kv.1 ≠ k)) k = none
    exact dget_filter_same a k

theorem getAttr_popAttr_ne (e : XElem) (k k2 : String) (h : k2 ≠ k) :
    (e.popAttr k).getAttr k2 = e.getAttr k2 := by
  cases e with
  | mk a t tl cs =>
    show dget (a.filter (fun kv => kv.1 ≠ k)) k2 = dget a k2
    exact dget_filter_other a k k2 h

theorem children_setAttr (e : XElem) (k v : String) :
    (e.setAttr k v).children = e.children := by
  cases e with
  | mk a t tl cs => rfl

theorem children_popAttr (e : XElem) (k : String) :
    (e.popAttr k).children = e.children := by
  cases e with
  | mk a t tl cs => rfl

theorem hideEl_vis (e : XElem) : (hideEl e).getAttr "visibility" = some "hidden" := by
  unfold hideEl
  rw [getAttr_setAttr_ne _ _ _ _ (by decide), getAttr_setAttr_same]

theorem hideEl_id (e : XElem) : (hideEl e).getAttr "id" = e.getAttr "id" := by
  unfold hideEl
  rw [getAttr_setAttr_ne _ _ _ _ (by decide), getAttr_setAttr_ne _ _ _ _ (by decide),
    getAttr_setAttr_ne _ _ _ _ (by decide), getAttr_popAttr_ne _ _ _ (by decide)]

theorem hideEl_children (e : XElem) : (hideEl e).children = e.children := by
  unfold hideEl
  rw [children_setAttr, children_setAttr, children_setAttr, children_popAttr]

theorem showEl_vis (e : XElem) : (showEl e).getAttr "visibility" = some "visible" := by
  unfold showEl
  rw [getAttr_popAttr_ne _ _ _ (by decide), getAttr_setAttr_same]

theorem showEl_id (e : XElem) : (showEl e).getAttr "id" = e.getAttr "id" := by
  unfold showEl
  rw [getAttr_popAttr_ne _ _ _ (by decide), getAttr_setAttr_ne _ _ _ _ (by decide),
    getAttr_setAttr_ne _ _ _ _ (by decide)]

theorem showEl_children (e : XElem) : (showEl e).children = e.children := by
  unfold showEl
  rw [children_popAttr, children_setAttr, children_setAttr]

theorem modifyAtPathL_at (f : XElem → XElem) (u : List XElem) (t : XElem) (v : List XElem) :
    modifyAtPathL f (u ++ t :: v) u.length [] = u ++ f t :: v := by
  induction u with
  | nil =>
    cases t with
    | mk a2 t2 tl2 cs2 => rfl
  | cons c cs ih =>
    rw [List.cons_append, List.length_cons, modifyAtPathL]
    simpa using ih

theorem modifyAtPath_flat (f : XElem → XElem) (a : List (String × String))
    (tx tl : Option String) (u : List XElem) (t : XElem) (v : List XElem) :
    XElem.modifyAtPath f (XElem.mk a tx tl (u ++ t :: v)) [u.length] =
      XElem.mk a tx tl (u ++ f t :: v) := by
  rw [XElem.modifyAtPath, modifyAtPathL_at]

theorem allElemsL_leaves (cs : List XElem) (hl : ∀ e ∈ cs, e.children.isEmpty = true) :
    allElemsL cs = cs := by
  induction cs with
  | nil => rfl
  | cons c rest ih =>
    have hc : c.children = [] := List.isEmpty_iff.mp (hl c (List.mem_cons_self c rest))
    rw [allElemsL]
    rw [show XElem.allElems c = [c] from by
      cases c with
      | mk a t tl ch =>
        simp only [XElem.children] at hc
        subst hc
        rw [XElem.allElems, allElemsL]]
    rw [ih (fun e he => hl e (List.mem_cons_of_mem c he))]
    rfl

theorem allElems_flat (a : List (String × String)) (tx tl : Option String) (cs : List XElem)
    (hl : ∀ e ∈ cs, e.children.isEmpty = true) :
    (XElem.mk a tx tl cs).allElems = XElem.mk a tx tl cs :: cs := by
  rw [XElem.allElems, allElemsL_leaves cs hl]

theorem subPathsL_true_flat (cs : List XElem) (i : Nat)
    (hl : ∀ e ∈ cs, e.children.isEmpty = true) :
    subPathsL (fun _ => true) cs i = (List.range cs.length).map (fun k => [i + k]) := by
  induction cs generalizing i with
  | nil => rfl
  | cons c rest ih =>
    have hc : c.children = [] := List.isEmpty_iff.mp (hl c (List.mem_cons_self c rest))
    rw [subPathsL]
    rw [show XElem.subPaths (fun _ => true) c = [] from by
      cases c with
      | mk a t tl ch =>
        simp only [XElem.children] at hc
        subst hc
        rw [XElem.subPaths]
        rfl]
    rw [ih (i + 1) (fun e he => hl e (List.mem_cons_of_mem c he))]
    simp [List.range_succ_eq_map, List.map_map, Function.comp_def, Nat.add_comm 1,
      Nat.add_assoc]

theorem epm_fold_skip (D : XElem) (ps : List (List Nat)) (m : List (String × List Nat))
    (xid : String)
    (h : ∀ p ∈ ps, ∀ el, D.getAtPath p = some el → el.getAttr "id" ≠ some xid) :
    dget (ps.foldl
        (fun m p =>
          match (D.getAtPath p).bind (fun e => e.getAttr "id") with
          | some i => if i ≠ "" then dictInsert i p m else m
          | none => m) m) xid = dget m xid := by
  induction ps generalizing m with
  | nil => rfl
  | cons p rest ih =>
    rw [List.foldl_cons, ih _ (fun q hq => h q (List.mem_cons_of_mem p hq))]
    cases hg : D.getAtPath p with
    | none => simp [hg]
    | some el =>
      cases hid : el.getAttr "id" with
      | none => simp [hg, hid]
      | some i =>
        have hne : ¬ (xid = i) := fun hc =>
          h p (List.mem_cons_self p rest) el hg (by rw [hid, hc])
        by_cases hi : i = ""
        · simp [hg, hid, hi]
        · simp [hg, hid, hi, dget_dictInsert, hne]

theorem epm_fold_found (D : XElem) (ps1 ps2 : List (List Nat)) (p0 : List Nat) (e : XElem)
    (xid : String) (m : List (String × List Nat))
    (hg : D.getAtPath p0 = some e) (hid : e.getAttr "id" = some xid) (hx : xid ≠ "")
    (h2 : ∀ p ∈ ps2, ∀ el, D.getAtPath p = some el → el.getAttr "id" ≠ some xid) :
    dget ((ps1 ++ p0 :: ps2).foldl
        (fun m p =>
          match (D.getAtPath p).bind (fun e => e.getAttr "id") with
          | some i => if i ≠ "" then dictInsert i p m else m
          | none => m) m) xid = some p0 := by
  rw [List.foldl_append, List.foldl_cons]
  rw [epm_fold_skip D ps2 _ xid h2]
  simp [hg, hid, hx, dget_dictInsert]

/-- On a flat document of leaves, an id carried by one child (with no later
duplicate) maps to that child's path in the element lookup dict; earlier
bindings for the same id are overwritten in place. -/
theorem elementPathMap_flat (a : List (String × String)) (tx tl : Option String)
    (u : List XElem) (e0 : XElem) (v : List XElem) (xid : String)
    (hxid : xid ≠ "") (he : e0.getAttr "id" = some xid)
    (hv : ∀ x ∈ v, x.getAttr "id" ≠ some xid)
    (hl : ∀ x ∈ u ++ e0 :: v, x.children.isEmpty = true) :
    dget (elementPathMap (XElem.mk a tx tl (u ++ e0 :: v))) xid = some [u.length] := by
  unfold elementPathMap
  have hp : XElem.subPaths (fun _ => true) (XElem.mk a tx tl (u ++ e0 :: v))
      = (List.range (u.length + (v.length + 1))).map (fun k => [k]) := by
    rw [show XElem.subPaths (fun _ => true) (XElem.mk a tx tl (u ++ e0 :: v))
        = subPathsL (fun _ => true) (u ++ e0 :: v) 0 from rfl]
    rw [subPathsL_true_flat _ 0 hl]
    simp
  rw [hp]
  have hdecomp : (([] : List Nat) :: (List.range (u.length + (v.length + 1))).map
        (fun k => [k]))
      = (([] : List Nat) :: (List.range u.length).map (fun k => [k])) ++
          [u.length] :: (List.range v.length).map (fun k => [u.length + (k + 1)]) := by
    simp [List.range_add, List.range_succ_eq_map, List.map_map, Function.comp_def,
      Nat.succ_eq_add_one]
  rw [hdecomp]
  refine epm_fold_found _ _ _ _ e0 xid _ (getAtPath_flat a tx tl u e0 v) he hxid ?_
  intro p hp2 el hel
  obtain ⟨k, hkmem, hkeq⟩ := List.mem_map.1 hp2
  have hk : k < v.length := List.mem_range.1 hkmem
  subst hkeq
  have hv2 : v.take k ++ v[k] :: v.drop (k + 1) = v := by
    rw [← List.drop_eq_getElem_cons hk, List.take_append_drop]
  have hsplit : u ++ e0 :: v = (u ++ e0 :: v.take k) ++ v[k] :: v.drop (k + 1) := by
    conv_lhs => rw [← hv2]
    simp
  have hlen : (u ++ e0 :: v.take k).length = u.length + (k + 1) := by
    simp [Nat.min_eq_left (le_of_lt hk)]
  have hres : (XElem.mk a tx tl (u ++ e0 :: v)).getAtPath [u.length + (k + 1)]
      = some v[k] := by
    rw [hsplit, ← hlen]
    exact getAtPath_flat a tx tl (u ++ e0 :: v.take k) v[k] (v.drop (k + 1))
  rw [hres] at hel
  have hee : v[k] = el := Option.some.inj hel
  rw [← hee]
  exact hv v[k] (List.getElem_mem hk)

theorem hide_step (em : List (String × List Nat)) (a : List (String × String))
    (tx tl : Option String) (done : List XElem) (e : XElem) (rest : List XElem)
    (o : SelectOpt) (h1 : o.svgElementId ≠ "")
    (h2 : dget em o.svgElementId = some [done.length]) :
    (if o.svgElementId == "" then XElem.mk a tx tl (done ++ e :: rest)
     else
       match dget em o.svgElementId with
       | none => XElem.mk a tx tl (done ++ e :: rest)
       | some p =>
         (XElem.mk a tx tl (done ++ e :: rest)).modifyAtPath
           (fun el =>
             (((el.popAttr "style").setAttr "opacity" "0").setAttr "visibility"
                 "hidden").setAttr "display" "none") p) =
      XElem.mk a tx tl ((done ++ [hideEl e]) ++ rest) := by
  rw [if_neg (by simpa using h1), h2]
  show (XElem.mk a tx tl (done ++ e :: rest)).modifyAtPath _ [done.length] = _
  rw [modifyAtPath_flat]
  show XElem.mk a tx tl (done ++ hideEl e :: rest) = _
  rw [List.append_cons]

theorem hide_fold (em : List (String × List Nat)) (a : List (String × String))
    (tx tl : Option String) (qs : List (SelectOpt × XElem)) (done : List XElem)
    (hq : ∀ (j : Nat) (h : j < qs.length),
        (qs.get ⟨j, h⟩).1.svgElementId ≠ "" ∧
        dget em (qs.get ⟨j, h⟩).1.svgElementId = some [done.length + j]) :
    (qs.map Prod.fst).foldl
      (fun t opt =>
        if opt.svgElementId == "" then t
        else
          match dget em opt.svgElementId with
          | none => t
          | some p =>
            t.modifyAtPath
              (fun el =>
                (((el.popAttr "style").setAttr "opacity" "0").setAttr "visibility"
                    "hidden").setAttr "display" "none") p)
      (XElem.mk a tx tl (done ++ qs.map Prod.snd)) =
      XElem.mk a tx tl (done ++ qs.map (fun q => hideEl q.2)) := by
  induction qs generalizing done with
  | nil => rfl
  | cons q rest ih =>
    obtain ⟨o, e⟩ := q
    rw [List.map_cons, List.map_cons, List.foldl_cons]
    have h0 := hq 0 (by simp)
    rw [hide_step em a tx tl done e (rest.map Prod.snd) o h0.1 h0.2]
    have key := ih (done ++ [hideEl e]) (fun j h => by
      have hj := hq (j + 1) (Nat.succ_lt_succ h)
      refine ⟨hj.1, ?_⟩
      rw [show (done ++ [hideEl e]).length + j = done.length + (j + 1) by
        simp
        omega]
      exact hj.2)
    rw [key, List.map_cons]
    simp

theorem get?_append_len (u : List α) (t : α) (v : List α) :
    (u ++ t :: v).get? u.length = some t := by
  induction u with
  | nil => rfl
  | cons c cs ih => simpa using ih

theorem renderField_select_hide (fm : List (String × FormField))
    (fv cv : List (String × PyVal)) (em : List (String × List Nat))
    (a : List (String × String)) (tx tl : Option String)
    (ps : List (SelectOpt × XElem)) (f : FormField)
    (hopts : f.options = ps.map Prod.fst) (hne : ps ≠ [])
    (hq : ∀ (j : Nat) (h : j < ps.length),
        (ps.get ⟨j, h⟩).1.svgElementId ≠ "" ∧
        dget em (ps.get ⟨j, h⟩).1.svgElementId = some [j])
    (hfind : (ps.map Prod.fst).find?
        (fun opt => opt.value == ((dget fv f.id).getD (.str "")).pyStr) = none) :
    renderField fm fv cv em (XElem.mk a tx tl (ps.map Prod.snd)) f =
      XElem.mk a tx tl (ps.map (fun q => hideEl q.2)) := by
  unfold renderField
  rw [hopts]
  rw [if_pos (by cases ps with | nil => exact absurd rfl hne | cons q r => simp)]
  rw [show ps.map Prod.snd = [] ++ ps.map Prod.snd from rfl]
  rw [hide_fold em a tx tl ps []
    (fun j h => ⟨(hq j h).1, by rw [(hq j h).2]; simp⟩)]
  simp only [hfind]
  simp

theorem renderField_select_show (fm : List (String × FormField))
    (fv cv : List (String × PyVal)) (em : List (String × List Nat))
    (a : List (String × String)) (tx tl : Option String)
    (qs1 : List (SelectOpt × XElem)) (q0 : SelectOpt × XElem)
    (qs2 : List (SelectOpt × XElem)) (f : FormField)
    (hopts : f.options = (qs1 ++ q0 :: qs2).map Prod.fst)
    (hq : ∀ (j : Nat) (h : j < (qs1 ++ q0 :: qs2).length),
        ((qs1 ++ q0 :: qs2).get ⟨j, h⟩).1.svgElementId ≠ "" ∧
        dget em ((qs1 ++ q0 :: qs2).get ⟨j, h⟩).1.svgElementId = some [j])
    (hfind : ((qs1 ++ q0 :: qs2).map Prod.fst).find?
        (fun opt => opt.value == ((dget fv f.id).getD (.str "")).pyStr) = some q0.1) :
    renderField fm fv cv em (XElem.mk a tx tl ((qs1 ++ q0 :: qs2).map Prod.snd)) f =
      XElem.mk a tx tl (qs1.map (fun q => hideEl q.2) ++
        showEl (hideEl q0.2) :: qs2.map (fun q => hideEl q.2)) := by
  unfold renderField
  rw [hopts]
  rw [if_pos (by simp)]
  rw [show (qs1 ++ q0 :: qs2).map Prod.snd = [] ++ (qs1 ++ q0 :: qs2).map Prod.snd from rfl]
  rw [hide_fold em a tx tl (qs1 ++ q0 :: qs2) []
    (fun j h => ⟨(hq j h).1, by rw [(hq j h).2]; simp⟩)]
  have hlen : qs1.length < (qs1 ++ q0 :: qs2).length := by simp
  have hget0 : (qs1 ++ q0 :: qs2).get ⟨qs1.length, hlen⟩ = q0 := by
    have h2 := get?_append_len qs1 q0 qs2
    rw [List.get?_eq_get hlen] at h2
    exact Option.some.inj h2
  have h0 := hq qs1.length hlen
  rw [hget0] at h0
  simp only [hfind]
  rw [if_pos h0.1, h0.2]
  have hshow : XElem.modifyAtPath
      (fun el => ((el.setAttr "opacity" "1").setAttr "visibility" "visible").popAttr
        "display")
      (XElem.mk a tx tl ([] ++ (qs1 ++ q0 :: qs2).map (fun q => hideEl q.2)))
      [qs1.length] =
      XElem.mk a tx tl (qs1.map (fun q => hideEl q.2) ++
        showEl (hideEl q0.2) :: qs2.map (fun q => hideEl q.2)) := by
    rw [List.nil_append, List.map_append, List.map_cons]
    rw [show [qs1.length] = [(qs1.map (fun q => hideEl q.2)).length] by simp]
    rw [modifyAtPath_flat]
    rfl
  exact hshow

/-- Each option element of a flat select document is found at its own index in
the element lookup dict. -/
theorem em_entry (a : List (String × String)) (tx tl : Option String)
    (ps : List (SelectOpt × XElem))
    (hpair : ∀ q ∈ ps, q.2.getAttr "id" = some q.1.svgElementId ∧
        q.1.svgElementId ≠ "" ∧ q.2.children.isEmpty = true)
    (hnodup : (ps.map (fun q => q.1.svgElementId)).Nodup)
    (j : Nat) (hj : j < ps.length) :
    dget (elementPathMap (XElem.mk a tx tl (ps.map Prod.snd)))
      (ps.get ⟨j, hj⟩).1.svgElementId = some [j] := by
  have hjm : j < (ps.map Prod.snd).length := by simpa using hj
  have hsplit : ps.map Prod.snd =
      (ps.map Prod.snd).take j ++ (ps.get ⟨j, hj⟩).2 :: (ps.map Prod.snd).drop (j + 1) := by
    conv_lhs => rw [← List.take_append_drop j (ps.map Prod.snd)]
    rw [List.drop_eq_getElem_cons hjm]
    simp
  have hlen : ((ps.map Prod.snd).take j).length = j := by
    simp
    omega
  have hmem : ps.get ⟨j, hj⟩ ∈ ps := List.getElem_mem hj
  have hp0 := hpair _ hmem
  have hv : ∀ x ∈ (ps.map Prod.snd).drop (j + 1),
      x.getAttr "id" ≠ some (ps.get ⟨j, hj⟩).1.svgElementId := by
    intro x hx
    obtain ⟨i, hi, hxeq⟩ := List.getElem_of_mem hx
    have hlt : j + 1 + i < ps.length := by
      simp [List.length_drop] at hi
      omega
    have hltm : j + 1 + i < (ps.map (fun q => q.1.svgElementId)).length := by
      simpa using hlt
    have hjm2 : j < (ps.map (fun q => q.1.svgElementId)).length := by
      simpa using hj
    have hxe : x = ps[j + 1 + i].2 := by
      rw [← hxeq, List.getElem_drop]
      simp
    have hxid := (hpair _ (List.getElem_mem hlt)).1
    rw [hxe, hxid]
    intro hc
    have hids : ps[j + 1 + i].1.svgElementId = (ps.get ⟨j, hj⟩).1.svgElementId :=
      Option.some.inj hc
    have hne : j + 1 + i ≠ j := by omega
    apply hne
    have h1 : (ps.map (fun q => q.1.svgElementId))[j + 1 + i] =
        (ps.map (fun q => q.1.svgElementId))[j] := by
      simp only [List.getElem_map]
      exact hids
    exact (List.Nodup.getElem_inj_iff hnodup).1 h1
  have hl : ∀ x ∈ (ps.map Prod.snd).take j ++
      (ps.get ⟨j, hj⟩).2 :: (ps.map Prod.snd).drop (j + 1), x.children.isEmpty = true := by
    intro x hx
    rw [← hsplit] at hx
    obtain ⟨q, hq, rfl⟩ := List.mem_map.1 hx
    exact (hpair q hq).2.2
  have key := elementPathMap_flat a tx tl ((ps.map Prod.snd).take j) (ps.get ⟨j, hj⟩).2
    ((ps.map Prod.snd).drop (j + 1)) (ps.get ⟨j, hj⟩).1.svgElementId
    hp0.2.1 hp0.1 hv hl
  rw [hlen] at key
  rw [hsplit]
  exact key

theorem visibleOptionCount_hide (a : List (String × String)) (tx tl : Option String)
    (ps : List (SelectOpt × XElem)) (f : FormField)
    (hroot : dget a "id" = none)
    (hleaf : ∀ q ∈ ps, q.2.children.isEmpty = true) :
    visibleOptionCount (XElem.mk a tx tl (ps.map (fun q => hideEl q.2))) f = 0 := by
  unfold visibleOptionCount
  rw [allElems_flat _ _ _ _ (by
    intro e he
    obtain ⟨q, hq, rfl⟩ := List.mem_map.1 he
    rw [hideEl_children]
    exact hleaf q hq)]
  rw [List.filter_eq_nil_iff.2 ?_]
  · rfl
  intro e he
  rcases List.mem_cons.1 he with h | h
  · subst h
    simp [XElem.getAttr, XElem.attrs, hroot]
  · obtain ⟨q, hq, rfl⟩ := List.mem_map.1 h
    simp [hideEl_vis]

theorem visibleOptionCount_show (a : List (String × String)) (tx tl : Option String)
    (qs1 : List (SelectOpt × XElem)) (q0 : SelectOpt × XElem)
    (qs2 : List (SelectOpt × XElem)) (f : FormField)
    (hroot : dget a "id" = none)
    (hleaf : ∀ q ∈ qs1 ++ q0 :: qs2, q.2.children.isEmpty = true)
    (hid0 : q0.2.getAttr "id" = some q0.1.svgElementId)
    (hopt0 : q0.1 ∈ f.options) :
    visibleOptionCount
      (XElem.mk a tx tl (qs1.map (fun q => hideEl q.2) ++
        showEl (hideEl q0.2) :: qs2.map (fun q => hideEl q.2))) f = 1 := by
  unfold visibleOptionCount
  rw [allElems_flat _ _ _ _ (by
    intro e he
    rcases List.mem_append.1 he with h | h
    · obtain ⟨q, hq, rfl⟩ := List.mem_map.1 h
      rw [hideEl_children]
      exact hleaf q (by simp [hq])
    · rcases List.mem_cons.1 h with h | h
      · subst h
        rw [showEl_children, hideEl_children]
        exact hleaf q0 (by simp)
      · obtain ⟨q, hq, rfl⟩ := List.mem_map.1 h
        rw [hideEl_children]
        exact hleaf q (by simp [hq]))]
  rw [List.filter_cons_of_neg (by simp [XElem.getAttr, XElem.attrs, hroot])]
  rw [List.filter_append]
  rw [List.filter_eq_nil_iff.2 (by
    intro e he
    obtain ⟨q, hq, rfl⟩ := List.mem_map.1 he
    simp [hideEl_vis])]
  rw [List.filter_cons_of_pos (by
    simp only [showEl_vis, showEl_id, hideEl_id, hid0, Bool.and_eq_true]
    exact ⟨List.any_eq_true.2 ⟨q0.1, hopt0, by simp⟩, by simp⟩)]
  rw [List.filter_eq_nil_iff.2 (by
    intro e he
    obtain ⟨q, hq, rfl⟩ := List.mem_map.1 he
    simp [hideEl_vis])]
  rfl

theorem update_single_noupdates (svg : XElem) (f : FormField) (hdep : f.dependsOn = none) :
    (update_svg_from_field_updates svg [f] []).1 =
      renderField [(f.id, f)]
        [(f.id, pyOr f.currentValue (pyOr f.defaultValue (.str "")))]
        [(f.id, pyOr f.currentValue (pyOr f.defaultValue (.str "")))]
        (elementPathMap svg) svg f := by
  unfold update_svg_from_field_updates
  rw [if_neg (by simp)]
  simp [hdep, dictInsert, dget]

/-- C4: counterexample.  A select field over Yes/No whose stored value "Nope"
matches no option: after the renderer runs, zero of its option elements carry
`visibility=visible`, not exactly one. -/
theorem c4_counterexample :
    visibleOptionCount (update_svg_from_field_updates nopeSvg [nopeField] []).1
        nopeField = 0 ∧
    ¬ (visibleOptionCount (update_svg_from_field_updates nopeSvg [nopeField] []).1
        nopeField = 1) := by
  constructor
  · decide
  · decide

/-- C4 (amended): for a select field whose option elements are the children of
a flat document (unique, nonempty element ids; no dependency), the renderer
leaves exactly one option element visible iff some option value string-matches
the resolved value, and zero option elements visible otherwise — not
"regardless of what value the field resolved to". -/
theorem c4_select_visibility_amended :
    ∀ (a : List (String × String)) (tx tl : Option String)
      (ps : List (SelectOpt × XElem)) (f : FormField),
      ps ≠ [] →
      f.options = ps.map Prod.fst →
      f.dependsOn = none →
      dget a "id" = none →
      (∀ q ∈ ps, q.2.getAttr "id" = some q.1.svgElementId ∧
          q.1.svgElementId ≠ "" ∧ q.2.children.isEmpty = true) →
      (ps.map (fun q => q.1.svgElementId)).Nodup →
      visibleOptionCount
          ((update_svg_from_field_updates (XElem.mk a tx tl (ps.map Prod.snd))
            [f] []).1) f =
        (if f.options.any (fun o => o.value == selectResolvedValue f) then 1 else 0) := by
  intro a tx tl ps f hne hopts hdep hroot hpair hnodup
  rw [update_single_noupdates _ f hdep]
  have hq : ∀ (j : Nat) (h : j < ps.length),
      (ps.get ⟨j, h⟩).1.svgElementId ≠ "" ∧
      dget (elementPathMap (XElem.mk a tx tl (ps.map Prod.snd)))
        (ps.get ⟨j, h⟩).1.svgElementId = some [j] :=
    fun j h => ⟨(hpair _ (List.getElem_mem h)).2.1, em_entry a tx tl ps hpair hnodup j h⟩
  have hfveq : ((dget [(f.id, pyOr f.currentValue (pyOr f.defaultValue (.str "")))]
      f.id).getD (.str "")).pyStr = selectResolvedValue f := by
    simp [dget, selectResolvedValue]
  cases hfind : (ps.map Prod.fst).find? (fun opt => opt.value == selectResolvedValue f) with
  | none =>
    have hfind2 : (ps.map Prod.fst).find?
        (fun opt => opt.value ==
          ((dget [(f.id, pyOr f.currentValue (pyOr f.defaultValue (.str "")))]
            f.id).getD (.str "")).pyStr) = none := by
      rw [hfveq]
      exact hfind
    rw [renderField_select_hide _ _ _ _ a tx tl ps f hopts hne hq hfind2]
    rw [visibleOptionCount_hide a tx tl ps f hroot (fun q hqm => (hpair q hqm).2.2)]
    have hany : f.options.any (fun o => o.value == selectResolvedValue f) = false := by
      rw [hopts, List.any_eq_false]
      intro x hx
      simpa using List.find?_eq_none.1 hfind x hx
    rw [hany]
    rfl
  | some sopt =>
    have hmem : sopt ∈ ps.map Prod.fst := List.mem_of_find?_eq_some hfind
    have hpred : (sopt.value == selectResolvedValue f) = true := by
      have h2 := List.find?_some hfind
      simpa using h2
    obtain ⟨i, hi, heq⟩ := List.getElem_of_mem hmem
    have hip : i < ps.length := by simpa using hi
    have hgi : ps[i].1 = sopt := by
      rw [← heq, List.getElem_map]
    have hsplit : ps = ps.take i ++ ps[i] :: ps.drop (i + 1) := by
      conv_lhs => rw [← List.take_append_drop i ps]
      rw [List.drop_eq_getElem_cons hip]
    have hfind2 : ((ps.take i ++ ps[i] :: ps.drop (i + 1)).map Prod.fst).find?
        (fun opt => opt.value ==
          ((dget [(f.id, pyOr f.currentValue (pyOr f.defaultValue (.str "")))]
            f.id).getD (.str "")).pyStr) = some ps[i].1 := by
      rw [hfveq, ← hsplit, hgi]
      exact hfind
    rw [hsplit] at hopts hq ⊢
    rw [renderField_select_show _ _ _ _ a tx tl (ps.take i) ps[i]
      (ps.drop (i + 1)) f hopts hq hfind2]
    rw [visibleOptionCount_show a tx tl (ps.take i) ps[i] (ps.drop (i + 1)) f hroot
      (fun q hqm => (hpair q (by rw [hsplit]; exact hqm)).2.2)
      (hpair _ (List.getElem_mem hip)).1
      (by rw [hopts]; exact List.mem_map_of_mem Prod.fst (by simp))]
    have hany : f.options.any (fun o => o.value == selectResolvedValue f) = true := by
      rw [hopts]
      exact List.any_eq_true.2 ⟨sopt, by rw [← hsplit]; exact hmem, hpred⟩
    rw [hany]
    rfl

/-- C4 (amended) witness: a single Yes option whose element is the only child,
with stored value "Yes": exactly one option element is visible. -/
theorem c4_select_visibility_amended_witness :
    visibleOptionCount
        ((update_svg_from_field_updates (XElem.mk [] none none [yesEl])
          [yesField] []).1) yesField = 1 := by
  have h := c4_select_visibility_amended [] none none [(yesOpt, yesEl)] yesField
    (by exact List.cons_ne_nil _ _) (by rfl) (by rfl) (by rfl)
    (by decide) (by decide)
  exact h.trans (by decide)
